import Mathlib

/-!
Shallow embedding of the semantic core of the meson build interpreter
(`mesonbuild/interpreter/interpreter.py`): the subproject resolver
(`do_subproject`), the dependency cache and resolver (`_find_cached_dep`,
`dependency_impl`, `get_subproject_dep`, `dependency_fallback`), the
target registry (`add_target`, `build_target`), the argument-freezing
machinery (`add_arguments` and its callers), and the sandbox path
validator (`validate_within_subproject`).

External collaborators (parser, wrap resolver, external dependency probe,
version comparison, nested statement execution) are modelled as oracle
functions carried in a `Ctx` record, exactly at the call boundaries the
source uses.  Mutable interpreter state is split into `Shared` (objects
shared between parent and nested interpreters: the subproject cache, the
per-machine dependency override tables, the implicit dependency cache)
and `Istate` (per-interpreter fields: frozen-argument flags, the
subproject call stack, argument dictionaries, the target registry of the
interpreter's build object).
-/

namespace Meson

/-- Error taxonomy of the interpreter: `InterpreterException`,
`InvalidCode`, `InvalidArguments`, `DependencyException` and
`WrapException` as raised by the embedded functions. -/
inductive MErr where
  | interp (msg : String)
  | invalidCode (msg : String)
  | invalidArgs (msg : String)
  | depException (msg : String)
  | wrapError (msg : String)
deriving Repr, DecidableEq

/-- `except InvalidCode: raise` discriminates on this class. -/
def MErr.isInvalidCode : MErr → Bool
  | .invalidCode _ => true
  | _ => false

/-- The two machines of `MachineChoice`. -/
inductive Machine where
  | build
  | host
deriving Repr, DecidableEq

/-- A pair of per-machine tables (`PerMachine` in the source). -/
structure PerMachine (α : Type) where
  forBuild : α
  forHost : α
deriving Repr, DecidableEq

def PerMachine.get (p : PerMachine α) : Machine → α
  | .build => p.forBuild
  | .host => p.forHost

def PerMachine.set (p : PerMachine α) : Machine → α → PerMachine α
  | .build, a => { p with forBuild := a }
  | .host, a => { p with forHost := a }

/-- Association-list lookup modelling Python `dict.get` (a cons at the
head models `d[k] = v`, since lookup returns the most recent binding). -/
def alookup [DecidableEq α] (k : α) : List (α × β) → Option β
  | [] => none
  | (a, b) :: t => if a = k then some b else alookup k t

/-- `needle.isPrefixOf hay || ...` recursion giving Python substring
containment (`sub in s` on the character lists). -/
def hasInfixChars (needle : List Char) : List Char → Bool
  | [] => List.isPrefixOf needle []
  | c :: t => List.isPrefixOf needle (c :: t) || hasInfixChars needle t

/-- Python `sub in s` for strings. -/
def pyInStr (sub s : String) : Bool := hasInfixChars sub.data s.data

/-- Python `s.startswith(pre)` (and `s[0] == c`, `os.path.isabs` for the
single-character cases), on the character lists. -/
def pyStartsWith (pre s : String) : Bool := List.isPrefixOf pre.data s.data

/-- A resolved dependency: its found flag and version string
(`'undefined'` sentinel when unknown). -/
structure Dep where
  found : Bool
  version : String
deriving Repr, DecidableEq

/-- `NotFoundDependency(...)`: a dependency with `found() == False`. -/
def NotFoundDependency : Dep := { found := false, version := "undefined" }

/-- An entry of `build.dependency_overrides`: the dependency plus the
explicit/implicit provenance flag. -/
structure DependencyOverride where
  dep : Dep
  explicit : Bool
deriving Repr, DecidableEq

/-- A value bound to a variable of a subproject, as seen by
`get_variable_method`: either a dependency holder or some other value. -/
inductive VarValue where
  | dep (d : Dep)
  | other
deriving Repr, DecidableEq

/-- `SubprojectHolder`: `found` is `held_object is not None`; `vars` are
the nested interpreter's variable bindings used by the
variable-extraction path. -/
structure SubprojectHolder where
  found : Bool
  subdir : String
  warnings : Nat
  disabled_feature : Option String
  exception : Option MErr
  version : String
  vars : List (String × VarValue)
deriving Repr, DecidableEq

/-- State shared by reference between the parent interpreter and nested
interpreters: the subproject cache (`self.subprojects`, shared via
`subi.subprojects = self.subprojects`), the per-machine dependency
override tables (`build.dependency_overrides`), the implicit process-wide
dependency cache (`coredata.deps`) and `coredata.initialized_subprojects`. -/
structure Shared where
  subprojects : List (String × SubprojectHolder)
  dependency_overrides : PerMachine (List (String × DependencyOverride))
  deps : PerMachine (List (String × Dep))
  initialized_subprojects : List String
deriving Repr, DecidableEq

/-- A per-language argument dictionary (`argsdict` in `add_arguments`). -/
def ArgsDict : Type := List (String × List String)

instance : DecidableEq ArgsDict := by
  unfold ArgsDict
  infer_instance

/-- The kinds of build targets the registry discriminates between. -/
inductive TargetKind where
  | executable
  | sharedLibrary
  | sharedModule
  | staticLibrary
  | jar
deriving Repr, DecidableEq

/-- A build target: display name, declaring subdirectory and kind. -/
structure Target where
  name : String
  subdir : String
  kind : TargetKind
deriving Repr, DecidableEq

/-- Modelled from the spec: `build.Target.get_id` is not part of the
provided sources (only its caller `add_target` is).  Per the spec, the
registry key is "a derived stable identifier ... distinct from the
display name, since two target kinds may share a display name";
"identifier = name plus a discriminator that allows an executable and a
static library to share a display name but not two targets of the same
kind".  The discriminator suffixes are distinct equal-length tags. -/
def TargetKind.suffix : TargetKind → String
  | .executable => "exe"
  | .sharedLibrary => "sha"
  | .sharedModule => "shm"
  | .staticLibrary => "sta"
  | .jar => "jar"

/-- Modelled from the spec: the registry identifier of a target is its
display name plus the kind discriminator (see `TargetKind.suffix`). -/
def Target.get_id (t : Target) : String := t.name ++ "@" ++ t.kind.suffix

/-- Per-interpreter mutable state (fields of one `Interpreter` object and
of its own `build` copy), around the `shared` sub-state. -/
structure Istate where
  shared : Shared
  subproject : String
  subproject_stack : List String
  subdir : String
  subproject_dir : String
  global_args_frozen : Bool
  project_args_frozen : Bool
  global_args : PerMachine ArgsDict
  projects_args : PerMachine (List (String × ArgsDict))
  targets : List (String × Target)
  target_guids : List String
deriving DecidableEq

/-- `wrap_mode` option values relevant to the resolver. -/
inductive WrapMode where
  | default
  | nofallback
  | forcefallback
deriving Repr, DecidableEq

/-- Result of running a nested interpreter (`subi.run()` and the fields
of `subi` read afterwards by `_do_subproject_meson`). -/
structure SubEvalInfo where
  project_version : String
  warnings : Nat
  vars : List (String × VarValue)
deriving Repr, DecidableEq

/-- Keyword arguments of `dependency()` after `extract_required_kwarg`
(the disabled/required pair) and type validation; `native` is the result
of `machine_from_native_kwarg`. -/
structure DepKwargs where
  disabled : Bool
  required : Bool
  fallback : Option (List String)
  allow_fallback : Option Bool
  version : List String
  native : Machine
  default_options : List String
deriving Repr, DecidableEq

/-- Keyword arguments of `subproject()` after `extract_required_kwarg`. -/
structure SubKwargs where
  disabled : Bool
  required : Bool
  feature : Option String
  default_options : List String
  version : Option (List String)
deriving Repr, DecidableEq

/-- The external collaborators and configuration consulted by the core:
`version_compare_many`, `dependencies.get_dep_identifier`,
`environment.wrap_resolver.resolve`, `wrap_resolver.find_dep_provider`,
`dependencies.find_external_dependency`, the nested statement executor,
and the `wrap_mode` / `force_fallback_for` options and
`coredata.FORBIDDEN_TARGET_NAMES`. -/
structure Ctx where
  vcmp : String → List String → Bool
  dep_identifier : String → DepKwargs → String
  wrap_resolve : String → String → Except String String
  find_dep_provider : String → Option (List String)
  find_external_dependency : String → DepKwargs → Bool → Except MErr Dep
  evaluate : String → String → Shared → Shared × Except MErr SubEvalInfo
  wrap_mode : WrapMode
  force_fallback_for : List String
  forbidden_target_names : List String


/-- `disabled_subproject`: build a not-found `SubprojectHolder`, store it
in the shared subproject cache and in `initialized_subprojects`, and
return it. -/
def disabled_subproject (st : Istate) (subp_name : String)
    (disabled_feature : Option String) (exception : Option MErr) :
    SubprojectHolder × Istate :=
  let sub : SubprojectHolder :=
    { found := false
      subdir := st.subproject_dir ++ "/" ++ subp_name
      warnings := 0
      disabled_feature := disabled_feature
      exception := exception
      version := "undefined"
      vars := [] }
  (sub, { st with shared :=
            { st.shared with
                subprojects := (subp_name, sub) :: st.shared.subprojects
                initialized_subprojects := subp_name :: st.shared.initialized_subprojects } })

/-- `get_subproject`: the cached holder, but only when it is found. -/
def get_subproject (st : Istate) (subp_name : String) : Option SubprojectHolder :=
  match alookup subp_name st.shared.subprojects with
  | some sub => if sub.found then some sub else none
  | none => none

/-- `_do_subproject_meson` around the external `subi.run()`: run the
nested interpreter on the shared state, check the `version` kwarg against
the nested project version, store the new holder in the shared subproject
cache.  The state is returned in both outcomes, because the nested
interpreter mutates shared objects in place even when an exception
escapes afterwards.  (`_do_subproject_cmake` generates a meson AST via the
external `CMakeInterpreter` and then delegates to this same path.) -/
def _do_subproject_meson (ctx : Ctx) (st : Istate) (subp_name subdir : String)
    (kw : SubKwargs) : Istate × Except MErr SubprojectHolder :=
  match ctx.evaluate subp_name subdir st.shared with
  | (sh1, .error e) => ({ st with shared := sh1 }, .error e)
  | (sh1, .ok info) =>
      let st1 := { st with shared := sh1 }
      let pv := info.project_version
      match kw.version with
      | some wanted =>
          if pv = "undefined" ∨ ¬ctx.vcmp pv wanted then
            (st1, .error (.interp
              ("Subproject " ++ subp_name ++ " version is " ++ pv ++ " but "
                ++ String.intercalate ", " wanted ++ " required.")))
          else
            let holder : SubprojectHolder :=
              { found := true, subdir := subdir, warnings := info.warnings
                disabled_feature := none, exception := none
                version := pv, vars := info.vars }
            ({ st1 with shared :=
                 { st1.shared with
                     subprojects := (subp_name, holder) :: st1.shared.subprojects
                     initialized_subprojects :=
                       subp_name :: st1.shared.initialized_subprojects } },
             .ok holder)
      | none =>
          let holder : SubprojectHolder :=
            { found := true, subdir := subdir, warnings := info.warnings
              disabled_feature := none, exception := none
              version := pv, vars := info.vars }
          ({ st1 with shared :=
               { st1.shared with
                   subprojects := (subp_name, holder) :: st1.shared.subprojects
                   initialized_subprojects :=
                     subp_name :: st1.shared.initialized_subprojects } },
           .ok holder)

/-- `do_subproject`: the subproject resolver.  In order: the
feature-disabled early return, name validation, cycle detection against
the subproject call stack, the cached-handle return, wrap resolution
(failure disables an optional subproject), freezing of global arguments,
nested evaluation with `InvalidCode` re-raised and every other error
downgraded to a disabled holder when the subproject is optional. -/
def do_subproject (ctx : Ctx) (st : Istate) (subp_name : String) (method : String)
    (kw : SubKwargs) : Except MErr (SubprojectHolder × Istate) :=
  if kw.disabled then
    .ok (disabled_subproject st subp_name kw.feature none)
  else if subp_name = "" then
    .error (.interp "Subproject name must not be empty.")
  else if pyStartsWith "." subp_name then
    .error (.interp "Subproject name must not start with a period.")
  else if pyInStr ".." subp_name then
    .error (.interp "Subproject name must not contain a \"..\" path segment.")
  else if pyStartsWith "/" subp_name then
    .error (.interp "Subproject name must not be an absolute path.")
  else if subp_name ∈ st.subproject_stack then
    .error (.invalidCode
      ("Recursive include of subprojects: "
        ++ String.intercalate " => " (st.subproject_stack ++ [subp_name]) ++ "."))
  else
    match alookup subp_name st.shared.subprojects with
    | some subproject =>
        if kw.required ∧ ¬subproject.found then
          .error (.interp ("Subproject \"" ++ subproject.subdir ++ "\" required but not found."))
        else
          .ok (subproject, st)
    | none =>
        match ctx.wrap_resolve subp_name method with
        | .error e =>
            if ¬kw.required then
              .ok (disabled_subproject st subp_name none (some (.wrapError e)))
            else
              .error (.wrapError e)
        | .ok subdir =>
            let st := { st with global_args_frozen := true }
            let res :=
              if method = "meson" ∨ method = "cmake" then
                _do_subproject_meson ctx st subp_name subdir kw
              else
                (st, .error (.interp
                  ("The method " ++ method ++ " is invalid for the subproject " ++ subp_name)))
            match res with
            | (st1, .ok holder) => .ok (holder, st1)
            | (st1, .error e) =>
                if e.isInvalidCode then
                  .error e
                else if ¬kw.required then
                  .ok (disabled_subproject st1 subp_name none (some e))
                else
                  .error e

/-- `Interpreter.check_version`: an empty constraint list always matches,
the `'undefined'` sentinel never does, otherwise `version_compare_many`
(an external collaborator, `ctx.vcmp`) decides. -/
def check_version (ctx : Ctx) (wanted : List String) (found : String) : Bool :=
  if wanted.isEmpty then true
  else if found = "undefined" || ¬ctx.vcmp found wanted then false
  else true

/-- Python truthiness of an optional string (`if varname:`). -/
def optStrTruthy : Option String → Bool
  | some s => s ≠ ""
  | none => false

/-- `_find_cached_dep`: consult the override table for the requested
machine first; an override that is not found is returned as-is, an
override failing the version constraint yields `NotFoundDependency`,
otherwise the override wins.  Only with no override is the implicit cache
consulted, and a version-incompatible implicit entry yields no dep. -/
def _find_cached_dep (ctx : Ctx) (st : Istate) (name : String) (kw : DepKwargs) :
    String × Option Dep :=
  let for_machine := kw.native
  let identifier := ctx.dep_identifier name kw
  let wanted_vers := kw.version
  match alookup identifier (st.shared.dependency_overrides.get for_machine) with
  | some override =>
      let cached_dep := override.dep
      if ¬cached_dep.found then (identifier, some cached_dep)
      else if ¬check_version ctx wanted_vers cached_dep.version then
        (identifier, some NotFoundDependency)
      else (identifier, some cached_dep)
  | none =>
      match alookup identifier (st.shared.deps.get for_machine) with
      | some cached_dep =>
          if ¬check_version ctx wanted_vers cached_dep.version then (identifier, none)
          else (identifier, some cached_dep)
      | none => (identifier, none)

/-- `verify_fallback_consistency`: when the subproject is configured, the
variable name truthy and the cached dependency found, the variable must
exist in the subproject (else `InvalidArguments` from
`get_variable_method`) and hold exactly the cached dependency. -/
def verify_fallback_consistency (st : Istate) (subp_name : String)
    (varname : Option String) (cached_dep : Dep) : Except MErr Unit :=
  match get_subproject st subp_name with
  | none => .ok ()
  | some subi =>
      if ¬optStrTruthy varname ∨ ¬cached_dep.found then .ok ()
      else
        match varname with
        | none => .ok ()
        | some v =>
            match alookup v subi.vars with
            | none => .error (.invalidArgs ("Unknown variable \"" ++ v ++ "\"."))
            | some (.dep d) =>
                if d ≠ cached_dep then
                  .error (.depException
                    "Inconsistency: Subproject has overridden the dependency with another variable")
                else .ok ()
            | some .other =>
                .error (.depException
                  "Inconsistency: Subproject has overridden the dependency with another variable")

/-- Control outcome of the `try` block of `get_subproject_dep`: either a
`return` was executed inside the block, or control fell through to the
code after the block with the current value of the `dep` local. -/
inductive TryOut where
  | ret (d : Dep)
  | cont (v : VarValue)
deriving Repr, DecidableEq

/-- The `try` block of `get_subproject_dep`: check the caches (a
subproject override in particular), verify fallback consistency when a
variable name was given, raise for a required not-found cached dep,
otherwise fetch the named variable from the subproject. -/
def get_subproject_dep_try (ctx : Ctx) (st : Istate) (name display_name subp_name : String)
    (varname : Option String) (kw : DepKwargs) (subproject : SubprojectHolder) :
    Except MErr TryOut :=
  match (_find_cached_dep ctx st name kw).2 with
  | some cached_dep =>
      match (if optStrTruthy varname then
               verify_fallback_consistency st subp_name varname cached_dep
             else .ok ()) with
      | .error e => .error e
      | .ok _ =>
          if kw.required ∧ ¬cached_dep.found then
            .error (.depException ("Dependency " ++ display_name ++ " is not satisfied"))
          else
            .ok (.ret cached_dep)
  | none =>
      match varname with
      | none =>
          if kw.required then
            .error (.depException
              ("Subproject " ++ subproject.subdir ++ " did not override dependency " ++ display_name))
          else
            .ok (.ret NotFoundDependency)
      | some v =>
          match alookup v subproject.vars with
          | none => .error (.invalidArgs ("Unknown variable \"" ++ v ++ "\"."))
          | some val => .ok (.cont val)

/-- The code after the `try` block of `get_subproject_dep`: reject a
non-dependency variable value, then the found flag and the version
constraint decide between the dep, an error (required) or not-found. -/
def get_subproject_dep_post (ctx : Ctx) (subp_name : String) (kw : DepKwargs)
    (v : VarValue) : Except MErr Dep :=
  match v with
  | .other =>
      .error (.invalidCode
        ("Fetched variable in the subproject " ++ subp_name ++ " is not a dependency object."))
  | .dep dep =>
      if ¬dep.found then
        if kw.required then
          .error (.depException ("Could not find dependency in subproject " ++ subp_name))
        else .ok dep
      else if ¬check_version ctx kw.version dep.version then
        if kw.required then
          .error (.depException
            ("Version of subproject dependency " ++ subp_name ++ " already cached, requested incompatible version"))
        else .ok NotFoundDependency
      else .ok dep

/-- `get_subproject_dep`: resolve a dependency through an (already
evaluated) fallback subproject; `InvalidArguments` raised inside the
`try` block (an unknown variable) falls through to the post-block code
with the initial not-found dep.  The interpreter state is not modified. -/
def get_subproject_dep (ctx : Ctx) (st : Istate) (name display_name subp_name : String)
    (varname : Option String) (kw : DepKwargs) : Except MErr Dep :=
  match alookup subp_name st.shared.subprojects with
  | none => .error (.interp "AttributeError: NoneType has no attribute subdir")
  | some subproject =>
      if ¬subproject.found then
        if kw.required then
          .error (.depException
            ("Subproject " ++ subproject.subdir ++ " failed to configure for dependency " ++ display_name))
        else .ok NotFoundDependency
      else
        match get_subproject_dep_try ctx st name display_name subp_name varname kw subproject with
        | .error (.invalidArgs _) => get_subproject_dep_post ctx subp_name kw (.dep NotFoundDependency)
        | .error e => .error e
        | .ok (.ret d) => .ok d
        | .ok (.cont v) => get_subproject_dep_post ctx subp_name kw v

/-- `get_subproject_infos`: a fallback of one item names a subproject, of
two items a subproject and a variable; anything else is an error. -/
def get_subproject_infos (fbinfo : List String) : Except MErr (String × Option String) :=
  match fbinfo with
  | [n] => .ok (n, none)
  | [n, v] => .ok (n, some v)
  | _ => .error (.interp "Fallback info must have one or two items.")

/-- The implicit-fallback discovery block of `dependency_impl`: when no
explicit fallback is given and fallbacks are not disallowed, ask the wrap
resolver for a provider subproject and adopt it when fallback is allowed,
the dep required, the provider already configured, or fallback forced. -/
def implicit_fallback (ctx : Ctx) (st : Istate) (name : String) (kw : DepKwargs)
    (ff : Bool) : Except MErr (Option (List String) × Bool) :=
  if name ≠ "" ∧ kw.fallback = none ∧ kw.allow_fallback ≠ some false then
    match ctx.find_dep_provider name with
    | none =>
        if kw.allow_fallback = some true then
          .error (.invalidArgs ("Fallback wrap or subproject not found for dependency " ++ name))
        else .ok (none, ff)
    | some provider =>
        let subp_name := provider.headD ""
        let ff2 := ff || decide (subp_name ∈ ctx.force_fallback_for)
        if kw.allow_fallback = some true ∨ kw.required ∨ (get_subproject st subp_name).isSome ∨ ff2 then
          .ok (some provider, ff2)
        else .ok (none, ff2)
  else .ok (kw.fallback, ff)

/-- `coredata.deps[for_machine].put(identifier, dep)`. -/
def putDep (st : Istate) (m : Machine) (identifier : String) (d : Dep) : Istate :=
  { st with shared :=
      { st.shared with
          deps := st.shared.deps.set m ((identifier, d) :: st.shared.deps.get m) } }

/-- The tail of `dependency_fallback` after the wrap-mode checks:
evaluate the fallback subproject (its handle is discarded, only the state
matters) and resolve the dependency through it. -/
def dependency_fallback_run (ctx : Ctx) (st : Istate) (name display_name subp_name : String)
    (varname : Option String) (kw : DepKwargs) : Except MErr (Dep × Istate) :=
  let sp_kw : SubKwargs :=
    { disabled := false, required := kw.required, feature := none
      default_options := kw.default_options, version := none }
  match do_subproject ctx st subp_name "meson" sp_kw with
  | .error e => .error e
  | .ok (_, st1) =>
      match get_subproject_dep ctx st1 name display_name subp_name varname kw with
      | .error e => .error e
      | .ok d => .ok (d, st1)

/-- `dependency_fallback`: forced fallbacks bypass the wrap-mode check;
`nofallback` raises for a required dependency and yields not-found for an
optional one; otherwise the fallback subproject is evaluated. -/
def dependency_fallback (ctx : Ctx) (st : Istate) (name display_name : String)
    (fallback : List String) (kw : DepKwargs) : Except MErr (Dep × Istate) :=
  match get_subproject_infos fallback with
  | .error e => .error e
  | .ok (subp_name, varname) =>
      if name ∈ ctx.force_fallback_for ∨ subp_name ∈ ctx.force_fallback_for then
        dependency_fallback_run ctx st name display_name subp_name varname kw
      else if ctx.wrap_mode = WrapMode.nofallback then
        if kw.required then
          .error (.depException ("Dependency " ++ display_name ++ " not found and fallback is disabled"))
        else .ok (NotFoundDependency, st)
      else
        dependency_fallback_run ctx st name display_name subp_name varname kw

/-- `dependency_impl`: the dependency resolution algorithm.  In order:
the feature-disabled early return, the fallback/allow_fallback mutual
exclusion, force-fallback computation, implicit-fallback discovery, the
static empty-name and forbidden-character errors, the cache consultation,
the already-configured-subproject path, the external probe (only found
results are installed in the implicit cache), and the fallback path. -/
def dependency_impl (ctx : Ctx) (st : Istate) (name display_name : String)
    (kw : DepKwargs) (force_fallback0 : Bool) : Except MErr (Dep × Istate) :=
  if kw.disabled then .ok (NotFoundDependency, st)
  else if kw.allow_fallback.isSome ∧ kw.fallback.isSome then
    .error (.invalidArgs "\"fallback\" and \"allow_fallback\" arguments are mutually exclusive")
  else
    let ff1 := force_fallback0 || decide (ctx.wrap_mode = WrapMode.forcefallback)
                 || decide (name ∈ ctx.force_fallback_for)
    match implicit_fallback ctx st name kw ff1 with
    | .error e => .error e
    | .ok (fallback, ff2) =>
        if name = "" ∧ kw.required ∧ fallback = none then
          .error (.invalidArgs "Dependency is both required and not-found")
        else if pyInStr "<" name || pyInStr ">" name || pyInStr "=" name then
          .error (.invalidArgs
            "Characters <, > and = are forbidden in dependency names. To specify version requirements use the version keyword argument instead.")
        else
          match _find_cached_dep ctx st name kw with
          | (_, some cached_dep) =>
              let chk : Except MErr Unit :=
                match fallback with
                | some fb =>
                    match get_subproject_infos fb with
                    | .error e => .error e
                    | .ok (subp_name, varname) =>
                        verify_fallback_consistency st subp_name varname cached_dep
                | none => .ok ()
              match chk with
              | .error e => .error e
              | .ok _ =>
                  if kw.required ∧ ¬cached_dep.found then
                    .error (.depException
                      ("Dependency " ++ display_name ++ " was already checked and was not found"))
                  else .ok (cached_dep, st)
          | (identifier, none) =>
              match fallback with
              | some fb =>
                  match get_subproject_infos fb with
                  | .error e => .error e
                  | .ok (subp_name, varname) =>
                      if (get_subproject st subp_name).isSome then
                        match get_subproject_dep ctx st name display_name subp_name varname kw with
                        | .error e => .error e
                        | .ok d => .ok (d, st)
                      else
                        let ff3 := ff2 || decide (subp_name ∈ ctx.force_fallback_for)
                        if name ≠ "" ∧ ¬ff3 then
                          match ctx.find_external_dependency name kw false with
                          | .error e => .error e
                          | .ok dep =>
                              if dep.found then .ok (dep, putDep st kw.native identifier dep)
                              else dependency_fallback ctx st name display_name fb kw
                        else dependency_fallback ctx st name display_name fb kw
              | none =>
                  if name ≠ "" then
                    match ctx.find_external_dependency name kw kw.required with
                    | .error e => .error e
                    | .ok dep =>
                        if dep.found then .ok (dep, putDep st kw.native identifier dep)
                        else .ok (NotFoundDependency, st)
                  else .ok (NotFoundDependency, st)

/-- `Path.resolve()` on a joined path, modelled on the list of path
components below the filesystem root: `.` and empty components vanish,
`..` removes the preceding component (at the root it stays at the root,
as POSIX resolution does). -/
def resolveComponents (l : List String) : List String :=
  l.foldl (fun acc c =>
    if c = "." ∨ c = "" then acc
    else if c = ".." then acc.dropLast
    else acc ++ [c]) []

/-- `p in q.parents` for resolved paths: `p` is a proper ancestor of `q`,
i.e. a proper component-list prefix. -/
def inParents (p q : List String) : Bool :=
  List.isPrefixOf p q && p ≠ q

/-- `validate_within_subproject`: resolve `fname` against the source root
and the current subdir; a path not under the source root is allowed, the
project root itself is allowed, a path under the root but not under the
current (sub)project root is a sandbox violation, and so is a path inside
the current project's nested-subprojects directory.  `srcdir` is the
resolved source root, `root_subdir`/`subproject_dir` are its relative
component lists, `subdir`/`fname` may contain `..` components. -/
def validate_within_subproject (srcdir root_subdir subproject_dir subdir fname : List String) :
    Except MErr Unit :=
  let norm := resolveComponents (srcdir ++ subdir ++ fname)
  if ¬inParents srcdir norm then .ok ()
  else
    let project_root := srcdir ++ root_subdir
    if norm = project_root then .ok ()
    else if ¬inParents project_root norm then
      .error (.interp "Sandbox violation: Tried to grab file outside current (sub)project.")
    else if inParents (project_root ++ subproject_dir) norm then
      .error (.interp "Sandbox violation: Tried to grab file from a nested subproject.")
    else .ok ()

/-- Python `str.strip()` restricted to ASCII whitespace. -/
def pySpace (c : Char) : Bool :=
  c = ' ' || c = '\t' || c = '\n' || c = '\r' || c = '\x0b' || c = '\x0c'

/-- Python `name.strip()`. -/
def pyStrip (s : String) : String :=
  String.mk (((s.data.dropWhile pySpace).reverse.dropWhile pySpace).reverse)

/-- `add_target`: reject empty, whitespace-only, `meson-`-prefixed and
forbidden names, and registry-identifier collisions; on success register
the target under its identifier and assign a stable build identifier
token the first time the identifier is seen. -/
def add_target (ctx : Ctx) (st : Istate) (name : String) (tobj : Target) :
    Except MErr Istate :=
  if name = "" then .error (.interp "Target name must not be empty.")
  else if pyStrip name = "" then
    .error (.interp "Target name must not consist only of whitespace.")
  else if pyStartsWith "meson-" name then
    .error (.invalidArgs "Target names starting with meson- are reserved for internal use. Please rename.")
  else if name ∈ ctx.forbidden_target_names then
    .error (.invalidArgs ("Target name " ++ name ++ " is reserved for internal use. Please rename."))
  else
    let idname := tobj.get_id
    if (alookup idname st.targets).isSome then
      .error (.invalidCode
        ("Tried to create target \"" ++ name ++ "\", but a target of that name already exists."))
    else
      let st1 := { st with targets := (idname, tobj) :: st.targets }
      if idname ∈ st1.target_guids then .ok st1
      else .ok { st1 with target_guids := idname :: st1.target_guids }

/-- `build_target` as far as the registry and the argument freeze are
concerned: the target object is built (source and kwarg processing by
external collaborators elided), registered via `add_target`, and project
arguments are frozen. -/
def build_target (ctx : Ctx) (st : Istate) (name : String) (kind : TargetKind) :
    Except MErr Istate :=
  let target : Target := { name := name, subdir := st.subdir, kind := kind }
  match add_target ctx st name target with
  | .error e => .error e
  | .ok st1 => .ok { st1 with project_args_frozen := true }

/-- The per-language merge loop of `add_arguments`. -/
def add_arguments_langs (argsdict : ArgsDict) (langs : List String)
    (args : List String) : ArgsDict :=
  langs.foldl (fun d lang => (lang, (alookup lang d).getD [] ++ args) :: d) argsdict

/-- `add_arguments`: refuse any mutation once the relevant freeze flag is
set, require a `language` kwarg, then append the arguments per language. -/
def add_arguments (args_frozen : Bool) (argsdict : ArgsDict)
    (langs : Option (List String)) (args : List String) : Except MErr ArgsDict :=
  if args_frozen then
    .error (.invalidCode
      "Tried to use arguments after a build target has been declared. This is not permitted. Please declare all arguments before your targets.")
  else
    match langs with
    | none => .error (.invalidCode "Missing language definition")
    | some ls => .ok (add_arguments_langs argsdict ls args)

/-- `add_global_arguments`: refused inside a subproject; frozen when
either project or global arguments are frozen. -/
def add_global_arguments (st : Istate) (m : Machine) (langs : Option (List String))
    (args : List String) : Except MErr Istate :=
  if st.subproject ≠ "" then
    .error (.invalidCode
      "Function cannot be used in subprojects because there is no way to make that reliable.")
  else
    match add_arguments (st.project_args_frozen || st.global_args_frozen)
        (st.global_args.get m) langs args with
    | .error e => .error e
    | .ok d => .ok { st with global_args := st.global_args.set m d }

/-- `add_project_arguments`: frozen when project arguments are frozen;
the per-subproject sub-dictionary is created on demand. -/
def add_project_arguments (st : Istate) (m : Machine) (langs : Option (List String))
    (args : List String) : Except MErr Istate :=
  let pd := st.projects_args.get m
  let cur := (alookup st.subproject pd).getD []
  match add_arguments st.project_args_frozen cur langs args with
  | .error e => .error e
  | .ok d => .ok { st with projects_args := st.projects_args.set m ((st.subproject, d) :: pd) }

/-- The build-description operations whose temporal interplay the freeze
flags govern. -/
inductive Op where
  | addGlobalArgs (m : Machine) (langs : Option (List String)) (args : List String)
  | addProjectArgs (m : Machine) (langs : Option (List String)) (args : List String)
  | declareTarget (name : String) (kind : TargetKind)
  | enterSubproject (name : String) (method : String) (kw : SubKwargs)
deriving DecidableEq

/-- One evaluation step dispatching an operation to its function. -/
def stepOp (ctx : Ctx) (st : Istate) : Op → Except MErr Istate
  | .addGlobalArgs m l a => add_global_arguments st m l a
  | .addProjectArgs m l a => add_project_arguments st m l a
  | .declareTarget n k => build_target ctx st n k
  | .enterSubproject n meth kw =>
      match do_subproject ctx st n meth kw with
      | .error e => .error e
      | .ok (_, st1) => .ok st1

/-- Sequential evaluation of operations; a fatal error aborts the run. -/
def runOps (ctx : Ctx) : List Op → Istate → Except MErr Istate
  | [], st => .ok st
  | op :: t, st =>
      match stepOp ctx st op with
      | .error e => .error e
      | .ok st1 => runOps ctx t st1

/-! Concrete fixtures used by witnesses and counterexamples. -/

/-- An empty shared state. -/
def emptyShared : Shared :=
  { subprojects := [], dependency_overrides := ⟨[], []⟩, deps := ⟨[], []⟩,
    initialized_subprojects := [] }

/-- The initial state of a top-level interpreter. -/
def st0 : Istate :=
  { shared := emptyShared, subproject := "", subproject_stack := [], subdir := "",
    subproject_dir := "subprojects", global_args_frozen := false, project_args_frozen := false,
    global_args := ⟨[], []⟩, projects_args := ⟨[], []⟩, targets := [], target_guids := [] }

/-- A benign collaborator environment: wrap resolution succeeds, version
comparison always matches, the probe finds nothing, nested evaluation
succeeds without touching the shared state. -/
def ctx0 : Ctx :=
  { vcmp := fun _ _ => true
    dep_identifier := fun n _ => n
    wrap_resolve := fun n _ => .ok ("subprojects/" ++ n)
    find_dep_provider := fun _ => none
    find_external_dependency := fun _ _ _ => .ok NotFoundDependency
    evaluate := fun _ _ sh => (sh, .ok { project_version := "1.0", warnings := 0, vars := [] })
    wrap_mode := .default
    force_fallback_for := []
    forbidden_target_names := [] }

/-- Optional (not required, not feature-disabled) subproject kwargs. -/
def subKwOpt : SubKwargs :=
  { disabled := false, required := false, feature := none, default_options := [], version := none }

/-- Required subproject kwargs. -/
def subKwReq : SubKwargs := { subKwOpt with required := true }

/-- Required, fallback-free dependency kwargs. -/
def depKwReq : DepKwargs :=
  { disabled := false, required := true, fallback := none, allow_fallback := none,
    version := [], native := .host, default_options := [] }

/-! C7 -/

/-- C7: a dependency lookup with an empty name, required and without a
fallback raises `InvalidArguments` statically: for every collaborator
environment and every state — hence before either cache is read and
before the external probe could be invoked — `dependency_impl` returns
the invalid-arguments error. -/
theorem C7_empty_required_no_fallback_static (ctx : Ctx) (st : Istate)
    (display_name : String) (kw : DepKwargs) (ff : Bool)
    (hd : kw.disabled = false) (hr : kw.required = true) (hf : kw.fallback = none) :
    dependency_impl ctx st "" display_name kw ff =
      .error (.invalidArgs "Dependency is both required and not-found") := by
  simp [dependency_impl, implicit_fallback, hd, hr, hf]

/-- Witness for C7 at a concrete environment, state and kwargs. -/
theorem C7_empty_required_no_fallback_static_witness :
    depKwReq.disabled = false ∧ depKwReq.required = true ∧ depKwReq.fallback = none ∧
    dependency_impl ctx0 st0 "" "(anonymous)" depKwReq false =
      .error (.invalidArgs "Dependency is both required and not-found") :=
  ⟨rfl, rfl, rfl,
   C7_empty_required_no_fallback_static ctx0 st0 "(anonymous)" depKwReq false rfl rfl rfl⟩

/-! C6 -/

/-- `inParents` unfolded to the prefix order. -/
theorem inParents_eq_true_iff (p q : List String) :
    inParents p q = true ↔ p <+: q ∧ p ≠ q := by
  simp [inParents, List.isPrefixOf_iff_prefix]

/-- C6: the sandbox validator accepts every path resolving entirely
outside the source root; it rejects every path resolving strictly inside
the source root whose resolution is not under the current (sub)project
root, and every path resolving strictly inside the current project's
nested-subprojects directory. -/
theorem C6_validate_within_subproject_sandbox
    (srcdir root_subdir subproject_dir subdir fname : List String) :
    (List.isPrefixOf srcdir (resolveComponents (srcdir ++ subdir ++ fname)) = false →
       validate_within_subproject srcdir root_subdir subproject_dir subdir fname = .ok ())
    ∧ (inParents srcdir (resolveComponents (srcdir ++ subdir ++ fname)) = true →
       List.isPrefixOf (srcdir ++ root_subdir)
         (resolveComponents (srcdir ++ subdir ++ fname)) = false →
       validate_within_subproject srcdir root_subdir subproject_dir subdir fname =
         .error (.interp "Sandbox violation: Tried to grab file outside current (sub)project."))
    ∧ (inParents (srcdir ++ root_subdir ++ subproject_dir)
         (resolveComponents (srcdir ++ subdir ++ fname)) = true →
       subproject_dir ≠ [] →
       validate_within_subproject srcdir root_subdir subproject_dir subdir fname =
         .error (.interp "Sandbox violation: Tried to grab file from a nested subproject.")) := by
  refine ⟨?_, ?_, ?_⟩
  · intro h
    have hc : ¬ inParents srcdir (resolveComponents (srcdir ++ subdir ++ fname)) = true := by
      unfold inParents
      rw [h]
      simp
    simp only [validate_within_subproject]
    rw [if_pos hc]
  · intro h1 h2
    have hne : ¬ resolveComponents (srcdir ++ subdir ++ fname) = srcdir ++ root_subdir := by
      intro he
      rw [he] at h2
      have hr : List.isPrefixOf (srcdir ++ root_subdir) (srcdir ++ root_subdir) = true :=
        List.isPrefixOf_iff_prefix.2 (List.prefix_refl _)
      rw [hr] at h2
      simp at h2
    have h3 : inParents (srcdir ++ root_subdir)
        (resolveComponents (srcdir ++ subdir ++ fname)) = false := by
      unfold inParents
      rw [h2]
      simp
    simp only [validate_within_subproject]
    rw [if_neg (fun hc => hc h1), if_neg hne, if_pos (show ¬ inParents (srcdir ++ root_subdir)
      (resolveComponents (srcdir ++ subdir ++ fname)) = true by rw [h3]; simp)]
  · intro h3 hs
    have h3' := h3
    rw [inParents_eq_true_iff] at h3'
    obtain ⟨hpfx, _⟩ := h3'
    have hsp : srcdir <+: srcdir ++ root_subdir := List.prefix_append _ _
    have hps : srcdir ++ root_subdir <+: srcdir ++ root_subdir ++ subproject_dir :=
      List.prefix_append _ _
    have hlt : (srcdir ++ root_subdir).length <
        (resolveComponents (srcdir ++ subdir ++ fname)).length := by
      have h4 : (srcdir ++ root_subdir ++ subproject_dir).length ≤
          (resolveComponents (srcdir ++ subdir ++ fname)).length := hpfx.length_le
      have h5 : 0 < subproject_dir.length := List.length_pos.2 hs
      simp only [List.length_append] at h4 ⊢
      omega
    have hroot : inParents srcdir (resolveComponents (srcdir ++ subdir ++ fname)) = true := by
      rw [inParents_eq_true_iff]
      refine ⟨hsp.trans (hps.trans hpfx), ?_⟩
      intro he
      have hl := congrArg List.length he
      have h6 : srcdir.length ≤ (srcdir ++ root_subdir).length := by
        simp only [List.length_append]
        omega
      omega
    have hpr : inParents (srcdir ++ root_subdir)
        (resolveComponents (srcdir ++ subdir ++ fname)) = true := by
      rw [inParents_eq_true_iff]
      refine ⟨hps.trans hpfx, ?_⟩
      intro he
      have hl := congrArg List.length he
      omega
    have hne : ¬ resolveComponents (srcdir ++ subdir ++ fname) = srcdir ++ root_subdir := by
      intro he
      have hl := congrArg List.length he
      omega
    simp only [validate_within_subproject]
    rw [if_neg (fun hc => hc hroot), if_neg hne, if_neg (show ¬ ¬ inParents (srcdir ++ root_subdir)
      (resolveComponents (srcdir ++ subdir ++ fname)) = true from fun hc => hc hpr), if_pos h3]

/-- Witness for C6 at concrete paths: a path escaping the source root is
accepted; from inside a subproject, a sibling subproject's file is
rejected; from the main project, a file inside the nested-subprojects
directory is rejected. -/
theorem C6_validate_within_subproject_sandbox_witness :
    (validate_within_subproject ["root"] ["subprojects", "foo"] ["subprojects"]
       ["subprojects", "foo"] ["..", "..", "..", "out.c"] = .ok ())
    ∧ (validate_within_subproject ["root"] ["subprojects", "foo"] ["subprojects"]
       ["subprojects", "foo"] ["..", "bar", "f.c"] =
         .error (.interp "Sandbox violation: Tried to grab file outside current (sub)project."))
    ∧ (validate_within_subproject ["root"] [] ["subprojects"] [] ["subprojects", "foo", "f.c"] =
         .error (.interp "Sandbox violation: Tried to grab file from a nested subproject.")) :=
  ⟨(C6_validate_within_subproject_sandbox ["root"] ["subprojects", "foo"] ["subprojects"]
      ["subprojects", "foo"] ["..", "..", "..", "out.c"]).1 (by decide),
   (C6_validate_within_subproject_sandbox ["root"] ["subprojects", "foo"] ["subprojects"]
      ["subprojects", "foo"] ["..", "bar", "f.c"]).2.1 (by decide) (by decide),
   (C6_validate_within_subproject_sandbox ["root"] [] ["subprojects"] []
      ["subprojects", "foo", "f.c"]).2.2 (by decide) (by decide)⟩

/-! C9 -/

/-- The identifiers of an executable and a static library sharing a
display name differ (the kind discriminator separates them). -/
theorem get_id_exe_ne_sta (n sd sd2 : String) :
    (Target.mk n sd .executable).get_id ≠ (Target.mk n sd2 .staticLibrary).get_id := by
  intro h
  have h2 : n ++ "@" ++ "exe" = n ++ "@" ++ "sta" := h
  have hd := congrArg String.data h2
  rw [String.data_append, String.data_append, String.data_append, String.data_append] at hd
  exact absurd (List.append_cancel_left hd) (by decide)

/-- A successful `add_target` registers exactly the new target at the
head of the registry. -/
theorem add_target_ok_targets (ctx : Ctx) (st : Istate) (name : String) (tobj : Target)
    (st1 : Istate) (h : add_target ctx st name tobj = .ok st1) :
    st1.targets = (tobj.get_id, tobj) :: st.targets := by
  simp only [add_target] at h
  by_cases h1 : name = ""
  · rw [if_pos h1] at h
    exact absurd h (by simp)
  rw [if_neg h1] at h
  by_cases h2 : pyStrip name = ""
  · rw [if_pos h2] at h
    exact absurd h (by simp)
  rw [if_neg h2] at h
  by_cases h3 : pyStartsWith "meson-" name = true
  · rw [if_pos h3] at h
    exact absurd h (by simp)
  rw [if_neg h3] at h
  by_cases h4 : name ∈ ctx.forbidden_target_names
  · rw [if_pos h4] at h
    exact absurd h (by simp)
  rw [if_neg h4] at h
  by_cases h5 : (alookup tobj.get_id st.targets).isSome = true
  · rw [if_pos h5] at h
    exact absurd h (by simp)
  rw [if_neg h5] at h
  by_cases h6 : tobj.get_id ∈ ({ st with targets := (tobj.get_id, tobj) :: st.targets } : Istate).target_guids
  · rw [if_pos h6] at h
    have := (Except.ok.inj h).symm
    rw [this]
  · rw [if_neg h6] at h
    have := (Except.ok.inj h).symm
    rw [this]

/-- A valid, collision-free registration succeeds and puts the target at
the head of the registry. -/
theorem add_target_ok_of (ctx : Ctx) (st : Istate) (name : String) (tobj : Target)
    (hn : name ≠ "") (hs : pyStrip name ≠ "") (hm : pyStartsWith "meson-" name = false)
    (hf : name ∉ ctx.forbidden_target_names)
    (hid : alookup tobj.get_id st.targets = none) :
    ∃ st1, add_target ctx st name tobj = .ok st1 ∧
      st1.targets = (tobj.get_id, tobj) :: st.targets := by
  simp only [add_target]
  rw [if_neg hn, if_neg hs, if_neg (by rw [hm]; simp), if_neg hf,
    if_neg (by rw [hid]; simp)]
  by_cases h6 : tobj.get_id ∈ ({ st with targets := (tobj.get_id, tobj) :: st.targets } : Istate).target_guids
  · rw [if_pos h6]
    exact ⟨_, rfl, rfl⟩
  · rw [if_neg h6]
    exact ⟨_, rfl, rfl⟩

/-- C9: `add_target` rejects empty names, whitespace-only names, the
reserved `meson-` prefix, and identifier collisions; since the identifier
carries the kind discriminator, registering the same name twice with the
same kind fails while an executable and a static library may share the
display name, and both stay retrievable. -/
theorem C9_add_target_rules (ctx : Ctx) (st : Istate) (name sd sd2 : String) (tobj : Target)
    (k : TargetKind) :
    (name = "" → ∃ e, add_target ctx st name tobj = .error e)
    ∧ (pyStrip name = "" → ∃ e, add_target ctx st name tobj = .error e)
    ∧ (pyStartsWith "meson-" name = true → ∃ e, add_target ctx st name tobj = .error e)
    ∧ ((alookup tobj.get_id st.targets).isSome = true → name ≠ "" → pyStrip name ≠ "" →
        pyStartsWith "meson-" name = false → name ∉ ctx.forbidden_target_names →
        ∃ e, add_target ctx st name tobj = .error e)
    ∧ (∀ st1, add_target ctx st name (Target.mk name sd k) = .ok st1 →
        ∃ e, add_target ctx st1 name (Target.mk name sd2 k) = .error e)
    ∧ (name ≠ "" → pyStrip name ≠ "" → pyStartsWith "meson-" name = false →
        name ∉ ctx.forbidden_target_names →
        alookup (Target.mk name sd .executable).get_id st.targets = none →
        alookup (Target.mk name sd2 .staticLibrary).get_id st.targets = none →
        ∃ st1 st2, add_target ctx st name (Target.mk name sd .executable) = .ok st1 ∧
          add_target ctx st1 name (Target.mk name sd2 .staticLibrary) = .ok st2 ∧
          alookup (Target.mk name sd .executable).get_id st2.targets =
            some (Target.mk name sd .executable) ∧
          alookup (Target.mk name sd2 .staticLibrary).get_id st2.targets =
            some (Target.mk name sd2 .staticLibrary)) := by
  refine ⟨?_, ?_, ?_, ?_, ?_, ?_⟩
  · intro h
    exact ⟨_, by simp only [add_target]; rw [if_pos h]⟩
  · intro h
    by_cases h1 : name = ""
    · exact ⟨_, by simp only [add_target]; rw [if_pos h1]⟩
    · exact ⟨_, by simp only [add_target]; rw [if_neg h1, if_pos h]⟩
  · intro h
    by_cases h1 : name = ""
    · exact ⟨_, by simp only [add_target]; rw [if_pos h1]⟩
    by_cases h2 : pyStrip name = ""
    · exact ⟨_, by simp only [add_target]; rw [if_neg h1, if_pos h2]⟩
    exact ⟨_, by simp only [add_target]; rw [if_neg h1, if_neg h2, if_pos h]⟩
  · intro hid hn hs hm hf
    exact ⟨_, by
      simp only [add_target]
      rw [if_neg hn, if_neg hs, if_neg (by rw [hm]; simp), if_neg hf, if_pos hid]⟩
  · intro st1 h
    have ht := add_target_ok_targets ctx st name _ st1 h
    have hn : name ≠ "" := by
      intro he
      rw [add_target, if_pos he] at h
      exact absurd h (by simp)
    have hs : pyStrip name ≠ "" := by
      intro he
      rw [add_target, if_neg hn, if_pos he] at h
      exact absurd h (by simp)
    have hm : ¬ pyStartsWith "meson-" name = true := by
      intro he
      rw [add_target, if_neg hn, if_neg hs, if_pos he] at h
      exact absurd h (by simp)
    have hf : name ∉ ctx.forbidden_target_names := by
      intro he
      rw [add_target, if_neg hn, if_neg hs, if_neg hm, if_pos he] at h
      exact absurd h (by simp)
    have hcol : (alookup (Target.mk name sd2 k).get_id st1.targets).isSome = true := by
      rw [ht]
      have hsame : (Target.mk name sd2 k).get_id = (Target.mk name sd k).get_id := rfl
      rw [hsame]
      simp [alookup]
    exact ⟨_, by
      simp only [add_target]
      rw [if_neg hn, if_neg hs, if_neg hm, if_neg hf, if_pos hcol]⟩
  · intro hn hs hm hf hid1 hid2
    obtain ⟨st1, h1, ht1⟩ := add_target_ok_of ctx st name (Target.mk name sd .executable)
      hn hs hm hf hid1
    have hne : (Target.mk name sd2 .staticLibrary).get_id ≠
        (Target.mk name sd .executable).get_id :=
      fun he => get_id_exe_ne_sta name sd sd2 he.symm
    have hne2 : ¬ (Target.mk name sd .executable).get_id =
        (Target.mk name sd2 .staticLibrary).get_id :=
      fun he => hne he.symm
    have hid2' : alookup (Target.mk name sd2 .staticLibrary).get_id st1.targets = none := by
      rw [ht1]
      simp [alookup, hne, hne2, hid2]
    obtain ⟨st2, h2, ht2⟩ := add_target_ok_of ctx st1 name (Target.mk name sd2 .staticLibrary)
      hn hs hm hf hid2'
    refine ⟨st1, st2, h1, h2, ?_, ?_⟩
    · rw [ht2, ht1]
      simp [alookup, hne, hne2]
    · rw [ht2]
      simp [alookup]

/-- Witness for C9: registering `foo` as an executable and as a static
library both succeed from the empty registry, and both are retrievable. -/
theorem C9_add_target_rules_witness :
    ∃ st1 st2, add_target ctx0 st0 "foo" (Target.mk "foo" "" .executable) = .ok st1 ∧
      add_target ctx0 st1 "foo" (Target.mk "foo" "sub" .staticLibrary) = .ok st2 ∧
      alookup (Target.mk "foo" "" .executable).get_id st2.targets =
        some (Target.mk "foo" "" .executable) ∧
      alookup (Target.mk "foo" "sub" .staticLibrary).get_id st2.targets =
        some (Target.mk "foo" "sub" .staticLibrary) :=
  (C9_add_target_rules ctx0 st0 "foo" "" "sub" (Target.mk "foo" "" .executable)
      TargetKind.executable).2.2.2.2.2
    (by decide) (by decide) (by decide) (by simp [ctx0]) rfl rfl

/-! C3 -/

/-- When the override table holds a found entry whose version fails the
requested constraint, `_find_cached_dep` yields `NotFoundDependency`. -/
theorem find_cached_dep_override_verfail (ctx : Ctx) (st : Istate) (name : String)
    (kw : DepKwargs) (ov : DependencyOverride)
    (hov : alookup (ctx.dep_identifier name kw)
      (st.shared.dependency_overrides.get kw.native) = some ov)
    (hfound : ov.dep.found = true)
    (hver : check_version ctx kw.version ov.dep.version = false) :
    _find_cached_dep ctx st name kw = (ctx.dep_identifier name kw, some NotFoundDependency) := by
  simp only [_find_cached_dep]
  rw [hov]
  simp [hfound, hver]

/-- C3: an override-table entry wins over the implicit cache (the result
of `_find_cached_dep` does not depend on the implicit cache at all), a
found override failing the requested version constraint yields a
not-found dependency, and in that case `dependency_impl` (for an optional
request) returns the not-found dependency with the state — the override
table in particular — unchanged. -/
theorem C3_override_beats_cache (ctx : Ctx) (st : Istate) (name display_name : String)
    (kw : DepKwargs) (ff : Bool) (deps2 : PerMachine (List (String × Dep)))
    (ov : DependencyOverride)
    (hov : alookup (ctx.dep_identifier name kw)
      (st.shared.dependency_overrides.get kw.native) = some ov) :
    (_find_cached_dep ctx { st with shared := { st.shared with deps := deps2 } } name kw =
       _find_cached_dep ctx st name kw)
    ∧ (ov.dep.found = true → check_version ctx kw.version ov.dep.version = false →
        (_find_cached_dep ctx st name kw).2 = some NotFoundDependency ∧
          NotFoundDependency.found = false)
    ∧ (ov.dep.found = true → check_version ctx kw.version ov.dep.version = false →
        kw.disabled = false → kw.required = false → kw.fallback = none →
        kw.allow_fallback = some false →
        pyInStr "<" name = false → pyInStr ">" name = false → pyInStr "=" name = false →
        dependency_impl ctx st name display_name kw ff = .ok (NotFoundDependency, st)) := by
  refine ⟨?_, ?_, ?_⟩
  · simp only [_find_cached_dep]
    rw [hov]
  · intro hfound hver
    rw [find_cached_dep_override_verfail ctx st name kw ov hov hfound hver]
    exact ⟨rfl, rfl⟩
  · intro hfound hver hd hreq hfb haf h1 h2 h3
    have hfcd := find_cached_dep_override_verfail ctx st name kw ov hov hfound hver
    simp [dependency_impl, implicit_fallback, hd, hreq, hfb, haf, h1, h2, h3, hfcd]

/-- Shared state holding one explicit override for `zlib` at version
`1.2.0` on the host machine. -/
def stOv : Istate :=
  { st0 with shared :=
      { emptyShared with dependency_overrides :=
          ⟨[], [("zlib", { dep := { found := true, version := "1.2.0" }, explicit := true })]⟩ } }

/-- A collaborator environment whose version comparison accepts exactly
the constraint list containing only the string representing at least one. -/
def ctxC3 : Ctx := { ctx0 with vcmp := fun _ wanted => decide (wanted = [">=1.0"]) }

/-- Dependency kwargs requesting a version the override fails. -/
def kwC3 : DepKwargs :=
  { disabled := false, required := false, fallback := none, allow_fallback := some false,
    version := [">=1.3"], native := .host, default_options := [] }

/-- Witness for C3: with the `zlib` override at `1.2.0` and constraint
at least `1.3`, resolution yields not-found and leaves the state (hence
the override table) unchanged. -/
theorem C3_override_beats_cache_witness :
    dependency_impl ctxC3 stOv "zlib" "zlib" kwC3 false = .ok (NotFoundDependency, stOv) :=
  (C3_override_beats_cache ctxC3 stOv "zlib" "zlib" kwC3 false ⟨[], []⟩
      { dep := { found := true, version := "1.2.0" }, explicit := true } rfl).2.2
    rfl (by decide) rfl rfl rfl rfl (by decide) (by decide) (by decide)

/-! C5 -/

/-- C5: when nested evaluation of a fresh subproject fails with any
error that is not a cycle (`InvalidCode`) error, an optional subproject
is downgraded to a disabled holder recording the exception and cached in
the subproject table (the parent continues normally), while a required
subproject propagates the error fatally. -/
theorem C5_optional_eval_error_disabled (ctx : Ctx) (st : Istate)
    (subp_name subdir : String) (kw : SubKwargs) (sh1 : Shared) (e : MErr)
    (hd : kw.disabled = false)
    (hn1 : subp_name ≠ "") (hn2 : pyStartsWith "." subp_name = false)
    (hn3 : pyInStr ".." subp_name = false) (hn4 : pyStartsWith "/" subp_name = false)
    (hstack : subp_name ∉ st.subproject_stack)
    (hcache : alookup subp_name st.shared.subprojects = none)
    (hwrap : ctx.wrap_resolve subp_name "meson" = .ok subdir)
    (heval : ctx.evaluate subp_name subdir st.shared = (sh1, .error e))
    (hic : e.isInvalidCode = false) :
    (kw.required = false →
      ∃ h st1, do_subproject ctx st subp_name "meson" kw = .ok (h, st1) ∧
        h.found = false ∧ h.exception = some e ∧
        alookup subp_name st1.shared.subprojects = some h)
    ∧ (kw.required = true → do_subproject ctx st subp_name "meson" kw = .error e) := by
  constructor
  · intro hreq
    refine ⟨{ found := false, subdir := st.subproject_dir ++ "/" ++ subp_name, warnings := 0,
              disabled_feature := none, exception := some e, version := "undefined", vars := [] },
            { st with global_args_frozen := true,
                      shared := { sh1 with
                        subprojects := (subp_name,
                          { found := false, subdir := st.subproject_dir ++ "/" ++ subp_name,
                            warnings := 0, disabled_feature := none, exception := some e,
                            version := "undefined", vars := [] }) :: sh1.subprojects,
                        initialized_subprojects := subp_name :: sh1.initialized_subprojects } },
            ?_, rfl, rfl, ?_⟩
    · simp [do_subproject, _do_subproject_meson, disabled_subproject,
        hd, hn1, hn2, hn3, hn4, hstack, hcache, hwrap, heval, hic, hreq]
    · simp [alookup]
  · intro hreq
    simp [do_subproject, _do_subproject_meson, disabled_subproject,
      hd, hn1, hn2, hn3, hn4, hstack, hcache, hwrap, heval, hic, hreq]

/-- A collaborator environment whose nested evaluation always fails with
a plain interpreter error. -/
def ctxEvalFail : Ctx :=
  { ctx0 with evaluate := fun _ _ sh => (sh, .error (.interp "boom")) }

/-- Witness for C5: with failing nested evaluation, the optional call
yields a disabled cached holder recording the error. -/
theorem C5_optional_eval_error_disabled_witness :
    ∃ h st1, do_subproject ctxEvalFail st0 "z" "meson" subKwOpt = .ok (h, st1) ∧
      h.found = false ∧ h.exception = some (.interp "boom") ∧
      alookup "z" st1.shared.subprojects = some h :=
  (C5_optional_eval_error_disabled ctxEvalFail st0 "z" "subprojects/z" subKwOpt
      emptyShared (.interp "boom") rfl (by decide) (by decide) (by decide) (by decide)
      (by decide) rfl rfl rfl rfl).1 rfl

/-! C2 -/

/-- A state whose subproject call stack already holds `A` and `B`. -/
def stStack : Istate := { st0 with subproject_stack := ["A", "B"] }

/-- Counterexample to C2 as stated: a call for a subproject that is on
the current call stack but whose feature is disabled returns a disabled
holder instead of failing with a cycle error (the feature-disabled early
return precedes the cycle check). -/
theorem C2_cycle_counterexample :
    "A" ∈ stStack.subproject_stack ∧
    ∃ h st1, do_subproject ctx0 stStack "A" "meson" { subKwOpt with disabled := true } =
        .ok (h, st1) ∧ h.found = false :=
  ⟨by decide, _, _, rfl, rfl⟩

/-- C2 (amended): for every call that is not feature-disabled with a
validated name already on the call stack, `do_subproject` fails fatally
with the cycle error naming the full chain joined by `" => "`; and an
`InvalidCode` (cycle) error raised by nested evaluation is re-raised even
when the subproject is optional. -/
theorem C2_cycle_detection (ctx : Ctx) (st : Istate) (subp_name : String) (kw : SubKwargs)
    (hd : kw.disabled = false)
    (hn1 : subp_name ≠ "") (hn2 : pyStartsWith "." subp_name = false)
    (hn3 : pyInStr ".." subp_name = false) (hn4 : pyStartsWith "/" subp_name = false) :
    (∀ method, subp_name ∈ st.subproject_stack →
      do_subproject ctx st subp_name method kw =
        .error (.invalidCode
          ("Recursive include of subprojects: "
            ++ String.intercalate " => " (st.subproject_stack ++ [subp_name]) ++ ".")))
    ∧ (∀ subdir sh1 e, subp_name ∉ st.subproject_stack →
        alookup subp_name st.shared.subprojects = none →
        ctx.wrap_resolve subp_name "meson" = .ok subdir →
        ctx.evaluate subp_name subdir st.shared = (sh1, .error e) →
        e.isInvalidCode = true →
        do_subproject ctx st subp_name "meson" kw = .error e) := by
  constructor
  · intro method hstack
    simp [do_subproject, hd, hn1, hn2, hn3, hn4, hstack]
  · intro subdir sh1 e hstack hcache hwrap heval hic
    simp [do_subproject, _do_subproject_meson, hd, hn1, hn2, hn3, hn4, hstack, hcache,
      hwrap, heval, hic]

/-- Collaborators whose nested evaluation fails with a cycle error. -/
def ctxEvalCycle : Ctx :=
  { ctx0 with evaluate := fun _ _ sh =>
      (sh, .error (.invalidCode "Recursive include of subprojects: z => w => z.")) }

/-- Witness for C2: with stack `[A, B]`, requesting `A` fails with the
chain `A => B => A`; and a nested cycle error propagates through an
optional `do_subproject` call instead of disabling it. -/
theorem C2_cycle_detection_witness :
    (do_subproject ctx0 stStack "A" "meson" subKwReq =
      .error (.invalidCode "Recursive include of subprojects: A => B => A."))
    ∧ (do_subproject ctxEvalCycle st0 "z" "meson" subKwOpt =
      .error (.invalidCode "Recursive include of subprojects: z => w => z.")) :=
  ⟨by
    have h := (C2_cycle_detection ctx0 stStack "A" subKwReq rfl (by decide) (by decide)
      (by decide) (by decide)).1 "meson" (by decide)
    simpa using h,
   (C2_cycle_detection ctxEvalCycle st0 "z" subKwOpt rfl (by decide) (by decide)
      (by decide) (by decide)).2 "subprojects/z" emptyShared
      (.invalidCode "Recursive include of subprojects: z => w => z.")
      (by decide) rfl rfl rfl rfl⟩

/-! C1 -/

/-- Collaborators whose wrap resolution always fails. -/
def ctxWrapFail : Ctx := { ctx0 with wrap_resolve := fun _ _ => .error "not found" }

/-- Counterexample to C1 as stated: the first (optional) call leaves a
cached not-found holder; the second call, with the subproject required,
raises instead of returning the cached handle. -/
theorem C1_cached_counterexample :
    ∃ h st1, do_subproject ctxWrapFail st0 "z" "meson" subKwOpt = .ok (h, st1) ∧
      h.found = false ∧
      do_subproject ctxWrapFail st1 "z" "meson" subKwReq =
        .error (.interp "Subproject \"subprojects/z\" required but not found.") :=
  ⟨_, _, rfl, rfl, rfl⟩

/-- C1 (amended): a second call for a cached subproject returns exactly
the cached handle with the state unchanged — unless the call is
feature-disabled, or the handle is not found and the call requires it, in
which case an error is raised; in every non-feature-disabled case the
result does not depend on the collaborator environment at all, so the
subproject is never evaluated (nor wrap-resolved) a second time. -/
theorem C1_cached_handle_no_reevaluation (ctx ctx2 : Ctx) (st : Istate)
    (subp_name method : String) (kw : SubKwargs) (h : SubprojectHolder)
    (hcache : alookup subp_name st.shared.subprojects = some h) :
    (kw.disabled = false → subp_name ≠ "" → pyStartsWith "." subp_name = false →
      pyInStr ".." subp_name = false → pyStartsWith "/" subp_name = false →
      subp_name ∉ st.subproject_stack → (kw.required = true → h.found = true) →
      do_subproject ctx st subp_name method kw = .ok (h, st))
    ∧ (kw.disabled = false →
      do_subproject ctx st subp_name method kw = do_subproject ctx2 st subp_name method kw) := by
  constructor
  · intro hd hn1 hn2 hn3 hn4 hstack hfnd
    simp only [do_subproject, hd, Bool.false_eq_true, if_false]
    simp [hn1, hn2, hn3, hn4, hstack, hcache]
    exact hfnd
  · intro hd
    simp [do_subproject, hd, hcache]

/-- The holder produced by the first successful evaluation of `z`. -/
def zHolder : SubprojectHolder :=
  { found := true, subdir := "subprojects/z", warnings := 0, disabled_feature := none,
    exception := none, version := "1.0", vars := [] }

/-- The state after the first successful evaluation of `z`. -/
def stZ : Istate :=
  { st0 with
      global_args_frozen := true
      shared :=
        { emptyShared with
            subprojects := [("z", zHolder)]
            initialized_subprojects := ["z"] } }

/-- Witness for C1: a successfully evaluated subproject is served from
the cache on the second call, identically for two different collaborator
environments (one of which would fail every wrap resolution). -/
theorem C1_cached_handle_no_reevaluation_witness :
    do_subproject ctx0 st0 "z" "meson" subKwOpt = .ok (zHolder, stZ) ∧ zHolder.found = true ∧
    do_subproject ctx0 stZ "z" "meson" subKwReq = .ok (zHolder, stZ) ∧
    do_subproject ctx0 stZ "z" "meson" subKwReq =
      do_subproject ctxWrapFail stZ "z" "meson" subKwReq :=
  ⟨rfl, rfl,
   (C1_cached_handle_no_reevaluation ctx0 ctx0 stZ "z" "meson" subKwReq zHolder rfl).1
     rfl (by decide) (by decide) (by decide) (by decide) (by decide) (fun _ => rfl),
   (C1_cached_handle_no_reevaluation ctx0 ctxWrapFail stZ "z" "meson" subKwReq zHolder rfl).2
     rfl⟩

/-! C10 -/

/-- Counterexample to C10 as stated: a lookup whose name contains `<`
but whose required-feature is disabled returns a not-found dependency
without raising (the feature-disabled early return precedes the
forbidden-character check). -/
theorem C10_forbidden_chars_counterexample :
    dependency_impl ctx0 st0 "foo<1" "foo<1" { depKwReq with disabled := true } false =
      .ok (NotFoundDependency, st0) := rfl

/-- The implicit-fallback discovery either raises `InvalidArguments` or
produces a fallback/force pair. -/
theorem implicit_fallback_cases (ctx : Ctx) (st : Istate) (name : String)
    (kw : DepKwargs) (ff : Bool) :
    (∃ m, implicit_fallback ctx st name kw ff = .error (.invalidArgs m)) ∨
    (∃ fb f2, implicit_fallback ctx st name kw ff = .ok (fb, f2)) := by
  unfold implicit_fallback
  split
  · split
    · split
      · exact Or.inl ⟨_, rfl⟩
      · exact Or.inr ⟨_, _, rfl⟩
    · dsimp only
      split
      · exact Or.inr ⟨_, _, rfl⟩
      · exact Or.inr ⟨_, _, rfl⟩
  · exact Or.inr ⟨_, _, rfl⟩

/-- C10 (amended): every dependency lookup that is not skipped by a
disabled feature and whose name contains `<`, `>` or `=` raises an
invalid-arguments error, regardless of the required flag and of any
fallback configuration. -/
theorem C10_forbidden_chars_in_name (ctx : Ctx) (st : Istate) (name display_name : String)
    (kw : DepKwargs) (ff : Bool)
    (hd : kw.disabled = false)
    (hchar : pyInStr "<" name = true ∨ pyInStr ">" name = true ∨ pyInStr "=" name = true) :
    ∃ m, dependency_impl ctx st name display_name kw ff = .error (.invalidArgs m) := by
  have hn : name ≠ "" := by
    intro he
    rcases hchar with hc | hc | hc <;> (rw [he] at hc; exact absurd hc (by decide))
  have hb : (pyInStr "<" name || pyInStr ">" name || pyInStr "=" name) = true := by
    rcases hchar with hc | hc | hc <;> simp [hc]
  by_cases c2 : kw.allow_fallback.isSome = true ∧ kw.fallback.isSome = true
  · exact ⟨_, by simp only [dependency_impl, hd, Bool.false_eq_true, if_false]; rw [if_pos c2]⟩
  rcases implicit_fallback_cases ctx st name kw
      (ff || decide (ctx.wrap_mode = WrapMode.forcefallback)
        || decide (name ∈ ctx.force_fallback_for)) with ⟨m, hif⟩ | ⟨fb, f2, hif⟩
  · refine ⟨m, ?_⟩
    simp only [dependency_impl, hd, Bool.false_eq_true, if_false]
    rw [if_neg c2, hif]
  · refine ⟨"Characters <, > and = are forbidden in dependency names. To specify version requirements use the version keyword argument instead.", ?_⟩
    simp only [dependency_impl, hd, Bool.false_eq_true, if_false]
    rw [if_neg c2, hif]
    dsimp only
    have hcond : ¬ (name = "" ∧ kw.required = true ∧ fb = none) := by
      rintro ⟨he, -, -⟩
      exact hn he
    rw [if_neg hcond, if_pos hb]

/-- Witness for the amended C10: a required lookup and an optional
lookup with a fallback both raise on a name containing `<`. -/
theorem C10_forbidden_chars_in_name_witness :
    (∃ m, dependency_impl ctx0 st0 "foo<1" "foo<1" depKwReq false =
      .error (.invalidArgs m)) ∧
    (∃ m, dependency_impl ctx0 st0 "foo<1" "foo<1"
        { depKwReq with required := false, fallback := some ["sub", "v"] } false =
      .error (.invalidArgs m)) :=
  ⟨C10_forbidden_chars_in_name ctx0 st0 "foo<1" "foo<1" depKwReq false rfl
     (Or.inl (by decide)),
   C10_forbidden_chars_in_name ctx0 st0 "foo<1" "foo<1"
     { depKwReq with required := false, fallback := some ["sub", "v"] } false rfl
     (Or.inl (by decide))⟩

/-! C8 -/

/-- `_do_subproject_meson` only modifies the shared sub-state: the
per-interpreter freeze flags pass through. -/
theorem _do_subproject_meson_flags (ctx : Ctx) (st : Istate) (n sd : String)
    (kw : SubKwargs) :
    (_do_subproject_meson ctx st n sd kw).1.global_args_frozen = st.global_args_frozen ∧
    (_do_subproject_meson ctx st n sd kw).1.project_args_frozen = st.project_args_frozen := by
  unfold _do_subproject_meson
  rcases hev : ctx.evaluate n sd st.shared with ⟨sh1, r⟩
  cases r with
  | error e => exact ⟨rfl, rfl⟩
  | ok info =>
    cases hv : kw.version with
    | none => exact ⟨rfl, rfl⟩
    | some wanted =>
      dsimp only
      split
      · exact ⟨rfl, rfl⟩
      · exact ⟨rfl, rfl⟩

/-- `disabled_subproject` only modifies the shared sub-state. -/
theorem disabled_subproject_flags (st : Istate) (n : String) (f : Option String)
    (e : Option MErr) :
    (disabled_subproject st n f e).2.global_args_frozen = st.global_args_frozen ∧
    (disabled_subproject st n f e).2.project_args_frozen = st.project_args_frozen :=
  ⟨rfl, rfl⟩

/-- A successful `do_subproject` call never changes the caller's
project-arguments freeze flag. -/
theorem do_subproject_paf (ctx : Ctx) (st : Istate) (n m : String) (kw : SubKwargs)
    (h : SubprojectHolder) (st1 : Istate)
    (hok : do_subproject ctx st n m kw = .ok (h, st1)) :
    st1.project_args_frozen = st.project_args_frozen := by
  unfold do_subproject at hok
  by_cases hd : kw.disabled = true
  · rw [if_pos hd] at hok
    have hv := Except.ok.inj hok
    have h2 := congrArg (fun p => p.2.project_args_frozen) hv
    exact h2.symm
  rw [if_neg hd] at hok
  by_cases c1 : n = ""
  · rw [if_pos c1] at hok
    exact absurd hok (by simp)
  rw [if_neg c1] at hok
  by_cases c2 : pyStartsWith "." n = true
  · rw [if_pos c2] at hok
    exact absurd hok (by simp)
  rw [if_neg c2] at hok
  by_cases c3 : pyInStr ".." n = true
  · rw [if_pos c3] at hok
    exact absurd hok (by simp)
  rw [if_neg c3] at hok
  by_cases c4 : pyStartsWith "/" n = true
  · rw [if_pos c4] at hok
    exact absurd hok (by simp)
  rw [if_neg c4] at hok
  by_cases c5 : n ∈ st.subproject_stack
  · rw [if_pos c5] at hok
    exact absurd hok (by simp)
  rw [if_neg c5] at hok
  rcases hc : alookup n st.shared.subprojects with _ | sub
  · rw [hc] at hok
    rcases hw : ctx.wrap_resolve n m with e | sd
    · rw [hw] at hok
      dsimp only at hok
      by_cases hr : ¬ kw.required = true
      · rw [if_pos hr] at hok
        have hv := Except.ok.inj hok
        have h2 := congrArg (fun p => p.2.project_args_frozen) hv
        exact h2.symm
      · rw [if_neg hr] at hok
        exact absurd hok (by simp)
    · rw [hw] at hok
      dsimp only at hok
      by_cases hm : m = "meson" ∨ m = "cmake"
      · rw [if_pos hm] at hok
        rcases hmes : _do_subproject_meson ctx { st with global_args_frozen := true } n sd kw
          with ⟨stx, r⟩
        have hpx : stx.project_args_frozen = st.project_args_frozen := by
          have h2 := congrArg (fun p => p.1.project_args_frozen) hmes
          exact h2.symm.trans
            (_do_subproject_meson_flags ctx { st with global_args_frozen := true } n sd kw).2
        rw [hmes] at hok
        cases r with
        | ok holder =>
          have hv := Except.ok.inj hok
          have h2 := congrArg (fun p => p.2.project_args_frozen) hv
          exact h2.symm.trans hpx
        | error e =>
          dsimp only at hok
          by_cases hic : e.isInvalidCode = true
          · rw [if_pos hic] at hok
            exact absurd hok (by simp)
          rw [if_neg hic] at hok
          by_cases hr : ¬ kw.required = true
          · rw [if_pos hr] at hok
            have hv := Except.ok.inj hok
            have h2 := congrArg (fun p => p.2.project_args_frozen) hv
            exact h2.symm.trans hpx
          · rw [if_neg hr] at hok
            exact absurd hok (by simp)
      · rw [if_neg hm] at hok
        dsimp only at hok
        by_cases hr : ¬ kw.required = true
        · rw [if_pos hr] at hok
          have hv := Except.ok.inj hok
          have h2 := congrArg (fun p => p.2.project_args_frozen) hv
          exact h2.symm
        · rw [if_neg hr] at hok
          exact absurd hok (by simp)
  · rw [hc] at hok
    dsimp only at hok
    by_cases hr : kw.required = true ∧ ¬ sub.found = true
    · rw [if_pos hr] at hok
      exact absurd hok (by simp)
    · rw [if_neg hr] at hok
      have hv := Except.ok.inj hok
      have h2 := congrArg (fun p => p.2.project_args_frozen) hv
      exact h2.symm

/-- A non-feature-disabled `do_subproject` call that resolves a fresh
subproject freezes the caller's global arguments. -/
theorem do_subproject_gaf (ctx : Ctx) (st : Istate) (n m : String) (kw : SubKwargs)
    (h : SubprojectHolder) (st1 : Istate)
    (hd : kw.disabled = false)
    (hc : alookup n st.shared.subprojects = none)
    (hok : do_subproject ctx st n m kw = .ok (h, st1))
    (hw : ∃ sd, ctx.wrap_resolve n m = .ok sd) :
    st1.global_args_frozen = true := by
  obtain ⟨sd, hwr⟩ := hw
  unfold do_subproject at hok
  rw [if_neg (by rw [hd]; simp)] at hok
  by_cases c1 : n = ""
  · rw [if_pos c1] at hok
    exact absurd hok (by simp)
  rw [if_neg c1] at hok
  by_cases c2 : pyStartsWith "." n = true
  · rw [if_pos c2] at hok
    exact absurd hok (by simp)
  rw [if_neg c2] at hok
  by_cases c3 : pyInStr ".." n = true
  · rw [if_pos c3] at hok
    exact absurd hok (by simp)
  rw [if_neg c3] at hok
  by_cases c4 : pyStartsWith "/" n = true
  · rw [if_pos c4] at hok
    exact absurd hok (by simp)
  rw [if_neg c4] at hok
  by_cases c5 : n ∈ st.subproject_stack
  · rw [if_pos c5] at hok
    exact absurd hok (by simp)
  rw [if_neg c5] at hok
  rw [hc, hwr] at hok
  dsimp only at hok
  by_cases hm : m = "meson" ∨ m = "cmake"
  · rw [if_pos hm] at hok
    rcases hmes : _do_subproject_meson ctx { st with global_args_frozen := true } n sd kw
      with ⟨stx, r⟩
    have hgx : stx.global_args_frozen = true := by
      have h2 := congrArg (fun p => p.1.global_args_frozen) hmes
      exact h2.symm.trans
        (_do_subproject_meson_flags ctx { st with global_args_frozen := true } n sd kw).1
    rw [hmes] at hok
    cases r with
    | ok holder =>
      have hv := Except.ok.inj hok
      have h2 := congrArg (fun p => p.2.global_args_frozen) hv
      exact h2.symm.trans hgx
    | error e =>
      dsimp only at hok
      by_cases hic : e.isInvalidCode = true
      · rw [if_pos hic] at hok
        exact absurd hok (by simp)
      rw [if_neg hic] at hok
      by_cases hr : ¬ kw.required = true
      · rw [if_pos hr] at hok
        have hv := Except.ok.inj hok
        have h2 := congrArg (fun p => p.2.global_args_frozen) hv
        exact h2.symm.trans hgx
      · rw [if_neg hr] at hok
        exact absurd hok (by simp)
  · rw [if_neg hm] at hok
    dsimp only at hok
    by_cases hr : ¬ kw.required = true
    · rw [if_pos hr] at hok
      have hv := Except.ok.inj hok
      have h2 := congrArg (fun p => p.2.global_args_frozen) hv
      exact h2.symm
    · rw [if_neg hr] at hok
      exact absurd hok (by simp)

/-- A successful `build_target` sets the project-arguments freeze flag. -/
theorem build_target_paf (ctx : Ctx) (st : Istate) (name : String) (k : TargetKind)
    (st1 : Istate) (hok : build_target ctx st name k = .ok st1) :
    st1.project_args_frozen = true := by
  unfold build_target at hok
  dsimp only at hok
  rcases ha : add_target ctx st name { name := name, subdir := st.subdir, kind := k }
    with e | stx
  · rw [ha] at hok
    exact absurd hok (by simp)
  · rw [ha] at hok
    dsimp only at hok
    have hv := Except.ok.inj hok
    rw [← hv]

/-- With either freeze flag set, `add_global_arguments` fails. -/
theorem add_global_arguments_frozen (st : Istate) (m : Machine)
    (l : Option (List String)) (a : List String)
    (hf : st.project_args_frozen = true ∨ st.global_args_frozen = true) :
    ∃ e, add_global_arguments st m l a = .error e := by
  by_cases hs : st.subproject ≠ ""
  · exact ⟨_, by unfold add_global_arguments; rw [if_pos hs]⟩
  · have hb : (st.project_args_frozen || st.global_args_frozen) = true := by
      rcases hf with h | h <;> simp [h]
    have ha : add_arguments (st.project_args_frozen || st.global_args_frozen)
        (st.global_args.get m) l a = .error (.invalidCode
          "Tried to use arguments after a build target has been declared. This is not permitted. Please declare all arguments before your targets.") := by
      unfold add_arguments
      rw [if_pos hb]
    exact ⟨_, by unfold add_global_arguments; rw [if_neg hs, ha]⟩

/-- With the project freeze flag set, `add_project_arguments` fails. -/
theorem add_project_arguments_frozen (st : Istate) (m : Machine)
    (l : Option (List String)) (a : List String)
    (hf : st.project_args_frozen = true) :
    ∃ e, add_project_arguments st m l a = .error e := by
  have ha : add_arguments st.project_args_frozen
      ((alookup st.subproject (st.projects_args.get m)).getD []) l a = .error (.invalidCode
        "Tried to use arguments after a build target has been declared. This is not permitted. Please declare all arguments before your targets.") := by
    unfold add_arguments
    rw [if_pos hf]
  exact ⟨_, by unfold add_project_arguments; dsimp only; rw [ha]⟩

/-- Every successful evaluation step preserves the project freeze flag. -/
theorem stepOp_paf (ctx : Ctx) (st : Istate) (op : Op) (st1 : Istate)
    (hok : stepOp ctx st op = .ok st1) (hf : st.project_args_frozen = true) :
    st1.project_args_frozen = true := by
  cases op with
  | addGlobalArgs m l a =>
    obtain ⟨e, he⟩ := add_global_arguments_frozen st m l a (Or.inl hf)
    simp only [stepOp] at hok
    rw [he] at hok
    exact absurd hok (by simp)
  | addProjectArgs m l a =>
    obtain ⟨e, he⟩ := add_project_arguments_frozen st m l a hf
    simp only [stepOp] at hok
    rw [he] at hok
    exact absurd hok (by simp)
  | declareTarget n k =>
    simp only [stepOp] at hok
    exact build_target_paf ctx st n k st1 hok
  | enterSubproject n meth kw =>
    simp only [stepOp] at hok
    rcases hds : do_subproject ctx st n meth kw with e | ⟨h, stx⟩
    · rw [hds] at hok
      exact absurd hok (by simp)
    · rw [hds] at hok
      dsimp only at hok
      have hv := Except.ok.inj hok
      rw [← hv]
      exact (do_subproject_paf ctx st n meth kw h stx hds).trans hf

/-- Once the project freeze flag is set, any operation sequence that
contains an argument-addition operation fails. -/
theorem runOps_frozen_add_fails (ctx : Ctx) (m : Machine) (l : Option (List String))
    (a : List String) : ∀ (ops : List Op) (st : Istate),
    st.project_args_frozen = true →
    (Op.addGlobalArgs m l a ∈ ops ∨ Op.addProjectArgs m l a ∈ ops) →
    ∃ e, runOps ctx ops st = .error e := by
  intro ops
  induction ops with
  | nil =>
    intro st hf hmem
    rcases hmem with h | h <;> exact absurd h (List.not_mem_nil _)
  | cons op t ih =>
    intro st hf hmem
    rcases hs : stepOp ctx st op with e | st1
    · exact ⟨e, by unfold runOps; rw [hs]⟩
    · have hf1 : st1.project_args_frozen = true := stepOp_paf ctx st op st1 hs hf
      have hmem2 : Op.addGlobalArgs m l a ∈ t ∨ Op.addProjectArgs m l a ∈ t := by
        rcases hmem with h | h
        · rcases List.mem_cons.1 h with he | ht
          · exfalso
            obtain ⟨e2, he2⟩ := add_global_arguments_frozen st m l a (Or.inl hf)
            rw [← he] at hs
            simp only [stepOp] at hs
            rw [he2] at hs
            exact absurd hs (by simp)
          · exact Or.inl ht
        · rcases List.mem_cons.1 h with he | ht
          · exfalso
            obtain ⟨e2, he2⟩ := add_project_arguments_frozen st m l a hf
            rw [← he] at hs
            simp only [stepOp] at hs
            rw [he2] at hs
            exact absurd hs (by simp)
          · exact Or.inr ht
      obtain ⟨e, he⟩ := ih st1 hf1 hmem2
      exact ⟨e, by unfold runOps; rw [hs]; exact he⟩

/-- C8: declaring a target freezes project arguments; with the flags
set, `add_global_arguments` and `add_project_arguments` fail at mutation
time; entering a (fresh, resolvable) subproject freezes global-argument
additions for the rest of the parent evaluation; and along any operation
sequence started after a freeze, every argument addition fails. -/
theorem C8_freeze_after_target (ctx : Ctx) (st : Istate) :
    (∀ n k st1, build_target ctx st n k = .ok st1 → st1.project_args_frozen = true)
    ∧ (∀ m l a, st.project_args_frozen = true ∨ st.global_args_frozen = true →
        ∃ e, add_global_arguments st m l a = .error e)
    ∧ (∀ m l a, st.project_args_frozen = true →
        ∃ e, add_project_arguments st m l a = .error e)
    ∧ (∀ n method kw h st1, kw.disabled = false →
        alookup n st.shared.subprojects = none →
        (∃ sd, ctx.wrap_resolve n method = .ok sd) →
        do_subproject ctx st n method kw = .ok (h, st1) →
        st1.global_args_frozen = true)
    ∧ (∀ ops m l a, st.project_args_frozen = true →
        (Op.addGlobalArgs m l a ∈ ops ∨ Op.addProjectArgs m l a ∈ ops) →
        ∃ e, runOps ctx ops st = .error e) :=
  ⟨fun n k st1 h => build_target_paf ctx st n k st1 h,
   fun m l a hf => add_global_arguments_frozen st m l a hf,
   fun m l a hf => add_project_arguments_frozen st m l a hf,
   fun n method kw h st1 hd hc hw hok => do_subproject_gaf ctx st n method kw h st1 hd hc hok hw,
   fun ops m l a hf hmem => runOps_frozen_add_fails ctx m l a ops st hf hmem⟩

/-- The state after declaring target `foo` from the initial state. -/
def stF : Istate :=
  { st0 with
      targets := [("foo@exe", { name := "foo", subdir := "", kind := .executable })]
      target_guids := ["foo@exe"]
      project_args_frozen := true }

/-- Witness for C8: after declaring a target the flag is set and both
argument additions fail, a run containing an addition fails, and
entering subproject `z` freezes global arguments. -/
theorem C8_freeze_after_target_witness :
    stF.project_args_frozen = true ∧
    (∃ e, add_global_arguments stF .host (some ["c"]) ["-O2"] = .error e) ∧
    (∃ e, add_project_arguments stF .host (some ["c"]) ["-O2"] = .error e) ∧
    stZ.global_args_frozen = true ∧
    (∃ e, runOps ctx0 [Op.addProjectArgs .host (some ["c"]) ["-g"]] stF = .error e) :=
  ⟨(C8_freeze_after_target ctx0 st0).1 "foo" .executable stF rfl,
   (C8_freeze_after_target ctx0 stF).2.1 .host (some ["c"]) ["-O2"] (Or.inl rfl),
   (C8_freeze_after_target ctx0 stF).2.2.1 .host (some ["c"]) ["-O2"] rfl,
   (C8_freeze_after_target ctx0 st0).2.2.2.1 "z" "meson" subKwOpt zHolder stZ rfl rfl
     ⟨"subprojects/z", rfl⟩ rfl,
   (C8_freeze_after_target ctx0 stF).2.2.2.2 [Op.addProjectArgs .host (some ["c"]) ["-g"]]
     .host (some ["c"]) ["-g"] rfl (Or.inr (List.mem_singleton.2 rfl))⟩

/-! C4 -/

/-- `_find_cached_dep` always reports the computed cache identifier. -/
theorem _find_cached_dep_fst (ctx : Ctx) (st : Istate) (name : String) (kw : DepKwargs) :
    (_find_cached_dep ctx st name kw).1 = ctx.dep_identifier name kw := by
  unfold _find_cached_dep
  dsimp only
  split
  · split
    · rfl
    · split
      · rfl
      · rfl
  · split
    · split
      · rfl
      · rfl
    · rfl

/-- When nested evaluation preserves the implicit dependency cache, so
does `_do_subproject_meson` (it only adds the subproject holder). -/
theorem _do_subproject_meson_deps (ctx : Ctx) (st : Istate) (n sd : String) (kw : SubKwargs)
    (hsh : ((ctx.evaluate n sd st.shared).1).deps = st.shared.deps) :
    ((_do_subproject_meson ctx st n sd kw).1).shared.deps = st.shared.deps := by
  unfold _do_subproject_meson
  rcases hev : ctx.evaluate n sd st.shared with ⟨sh1, r⟩
  rw [hev] at hsh
  cases r with
  | error e => exact hsh
  | ok info =>
    cases hv : kw.version with
    | none => exact hsh
    | some wanted =>
      dsimp only
      split
      · exact hsh
      · exact hsh

/-- When nested evaluation preserves the implicit dependency cache, a
successful `do_subproject` call does too. -/
theorem do_subproject_deps (ctx : Ctx)
    (hev : ∀ n2 sd2 sh, ((ctx.evaluate n2 sd2 sh).1).deps = sh.deps)
    (st : Istate) (n m : String) (kw : SubKwargs) (h : SubprojectHolder) (st1 : Istate)
    (hok : do_subproject ctx st n m kw = .ok (h, st1)) :
    st1.shared.deps = st.shared.deps := by
  unfold do_subproject at hok
  by_cases hd : kw.disabled = true
  · rw [if_pos hd] at hok
    have hv := Except.ok.inj hok
    exact (congrArg (fun p => p.2.shared.deps) hv).symm
  rw [if_neg hd] at hok
  by_cases c1 : n = ""
  · rw [if_pos c1] at hok
    exact absurd hok (by simp)
  rw [if_neg c1] at hok
  by_cases c2 : pyStartsWith "." n = true
  · rw [if_pos c2] at hok
    exact absurd hok (by simp)
  rw [if_neg c2] at hok
  by_cases c3 : pyInStr ".." n = true
  · rw [if_pos c3] at hok
    exact absurd hok (by simp)
  rw [if_neg c3] at hok
  by_cases c4 : pyStartsWith "/" n = true
  · rw [if_pos c4] at hok
    exact absurd hok (by simp)
  rw [if_neg c4] at hok
  by_cases c5 : n ∈ st.subproject_stack
  · rw [if_pos c5] at hok
    exact absurd hok (by simp)
  rw [if_neg c5] at hok
  rcases hc : alookup n st.shared.subprojects with _ | sub
  · rw [hc] at hok
    rcases hw : ctx.wrap_resolve n m with e | sd
    · rw [hw] at hok
      dsimp only at hok
      by_cases hr : ¬ kw.required = true
      · rw [if_pos hr] at hok
        have hv := Except.ok.inj hok
        exact (congrArg (fun p => p.2.shared.deps) hv).symm
      · rw [if_neg hr] at hok
        exact absurd hok (by simp)
    · rw [hw] at hok
      dsimp only at hok
      by_cases hm : m = "meson" ∨ m = "cmake"
      · rw [if_pos hm] at hok
        rcases hmes : _do_subproject_meson ctx { st with global_args_frozen := true } n sd kw
          with ⟨stx, r⟩
        have hdx : stx.shared.deps = st.shared.deps := by
          have h2 := congrArg (fun p => p.1.shared.deps) hmes
          exact h2.symm.trans
            (_do_subproject_meson_deps ctx { st with global_args_frozen := true } n sd kw
              (hev n sd _))
        rw [hmes] at hok
        cases r with
        | ok holder =>
          have hv := Except.ok.inj hok
          exact (congrArg (fun p => p.2.shared.deps) hv).symm.trans hdx
        | error e =>
          dsimp only at hok
          by_cases hic : e.isInvalidCode = true
          · rw [if_pos hic] at hok
            exact absurd hok (by simp)
          rw [if_neg hic] at hok
          by_cases hr : ¬ kw.required = true
          · rw [if_pos hr] at hok
            have hv := Except.ok.inj hok
            exact (congrArg (fun p => p.2.shared.deps) hv).symm.trans hdx
          · rw [if_neg hr] at hok
            exact absurd hok (by simp)
      · rw [if_neg hm] at hok
        dsimp only at hok
        by_cases hr : ¬ kw.required = true
        · rw [if_pos hr] at hok
          have hv := Except.ok.inj hok
          exact (congrArg (fun p => p.2.shared.deps) hv).symm
        · rw [if_neg hr] at hok
          exact absurd hok (by simp)
  · rw [hc] at hok
    dsimp only at hok
    by_cases hr : kw.required = true ∧ ¬ sub.found = true
    · rw [if_pos hr] at hok
      exact absurd hok (by simp)
    · rw [if_neg hr] at hok
      have hv := Except.ok.inj hok
      exact (congrArg (fun p => p.2.shared.deps) hv).symm

/-- The tail of the fallback path never touches the implicit cache
(given deps-preserving nested evaluation). -/
theorem dependency_fallback_run_deps (ctx : Ctx)
    (hev : ∀ n2 sd2 sh, ((ctx.evaluate n2 sd2 sh).1).deps = sh.deps)
    (st : Istate) (name display_name sn : String) (vn : Option String) (kw : DepKwargs)
    (d : Dep) (st1 : Istate)
    (hok : dependency_fallback_run ctx st name display_name sn vn kw = .ok (d, st1)) :
    st1.shared.deps = st.shared.deps := by
  unfold dependency_fallback_run at hok
  dsimp only at hok
  rcases hds : do_subproject ctx st sn "meson"
      { disabled := false, required := kw.required, feature := none,
        default_options := kw.default_options, version := none } with e | p
  · rw [hds] at hok
    exact absurd hok (by simp)
  · obtain ⟨h2, stx⟩ := p
    rw [hds] at hok
    dsimp only at hok
    rcases hgd : get_subproject_dep ctx stx name display_name sn vn kw with e | dd
    · rw [hgd] at hok
      exact absurd hok (by simp)
    · rw [hgd] at hok
      have hv := Except.ok.inj hok
      have hstx := do_subproject_deps ctx hev st sn "meson" _ h2 stx hds
      exact (congrArg (fun p => p.2.shared.deps) hv).symm.trans hstx

/-- `dependency_fallback` never touches the implicit cache (given
deps-preserving nested evaluation). -/
theorem dependency_fallback_deps (ctx : Ctx)
    (hev : ∀ n2 sd2 sh, ((ctx.evaluate n2 sd2 sh).1).deps = sh.deps)
    (st : Istate) (name display_name : String) (fb : List String) (kw : DepKwargs)
    (d : Dep) (st1 : Istate)
    (hok : dependency_fallback ctx st name display_name fb kw = .ok (d, st1)) :
    st1.shared.deps = st.shared.deps := by
  unfold dependency_fallback at hok
  rcases hsi : get_subproject_infos fb with e | p
  · rw [hsi] at hok
    exact absurd hok (by simp)
  obtain ⟨sn, vn⟩ := p
  rw [hsi] at hok
  dsimp only at hok
  by_cases c1 : name ∈ ctx.force_fallback_for ∨ sn ∈ ctx.force_fallback_for
  · rw [if_pos c1] at hok
    exact dependency_fallback_run_deps ctx hev st name display_name sn vn kw d st1 hok
  rw [if_neg c1] at hok
  by_cases c2 : ctx.wrap_mode = WrapMode.nofallback
  · rw [if_pos c2] at hok
    by_cases c3 : kw.required = true
    · rw [if_pos c3] at hok
      exact absurd hok (by simp)
    · rw [if_neg c3] at hok
      have hv := Except.ok.inj hok
      exact (congrArg (fun p => p.2.shared.deps) hv).symm
  · rw [if_neg c2] at hok
    exact dependency_fallback_run_deps ctx hev st name display_name sn vn kw d st1 hok

/-- C4: whenever nested subproject evaluation preserves the implicit
dependency cache, a successful `dependency_impl` call either leaves the
implicit cache unchanged (in particular on every fallback-served path)
or extends it with exactly the found result of the external probe under
the computed identifier — fallback-sourced dependencies are never
installed in the implicit cache. -/
theorem C4_fallback_never_cached (ctx : Ctx)
    (hev : ∀ n sd sh, ((ctx.evaluate n sd sh).1).deps = sh.deps)
    (st : Istate) (name display_name : String) (kw : DepKwargs) (ff : Bool)
    (d : Dep) (st1 : Istate)
    (hok : dependency_impl ctx st name display_name kw ff = .ok (d, st1)) :
    st1.shared.deps = st.shared.deps ∨
    (∃ b dep, ctx.find_external_dependency name kw b = .ok dep ∧ dep.found = true ∧ d = dep ∧
      st1.shared.deps =
        st.shared.deps.set kw.native
          ((ctx.dep_identifier name kw, dep) :: st.shared.deps.get kw.native)) := by
  unfold dependency_impl at hok
  by_cases hd : kw.disabled = true
  · rw [if_pos hd] at hok
    have hv := Except.ok.inj hok
    exact Or.inl (congrArg (fun p => p.2.shared.deps) hv).symm
  rw [if_neg hd] at hok
  by_cases c2 : kw.allow_fallback.isSome = true ∧ kw.fallback.isSome = true
  · rw [if_pos c2] at hok
    exact absurd hok (by simp)
  rw [if_neg c2] at hok
  dsimp only at hok
  rcases hif : implicit_fallback ctx st name kw
      (ff || decide (ctx.wrap_mode = WrapMode.forcefallback)
        || decide (name ∈ ctx.force_fallback_for)) with e | p
  · rw [hif] at hok
    exact absurd hok (by simp)
  obtain ⟨fb, f2⟩ := p
  rw [hif] at hok
  dsimp only at hok
  by_cases c3 : name = "" ∧ kw.required = true ∧ fb = none
  · rw [if_pos c3] at hok
    exact absurd hok (by simp)
  rw [if_neg c3] at hok
  by_cases c4 : (pyInStr "<" name || pyInStr ">" name || pyInStr "=" name) = true
  · rw [if_pos c4] at hok
    exact absurd hok (by simp)
  rw [if_neg c4] at hok
  rcases hfc : _find_cached_dep ctx st name kw with ⟨ident, copt⟩
  have hident : ident = ctx.dep_identifier name kw := by
    have h2 := congrArg Prod.fst hfc
    exact h2.symm.trans (_find_cached_dep_fst ctx st name kw)
  rw [hfc] at hok
  cases copt with
  | some cached =>
    dsimp only at hok
    cases fb with
    | none =>
      dsimp only at hok
      by_cases c5 : kw.required = true ∧ ¬ cached.found = true
      · rw [if_pos c5] at hok
        exact absurd hok (by simp)
      · rw [if_neg c5] at hok
        have hv := Except.ok.inj hok
        exact Or.inl (congrArg (fun p => p.2.shared.deps) hv).symm
    | some fbv =>
      dsimp only at hok
      rcases hsi : get_subproject_infos fbv with e | q
      · rw [hsi] at hok
        exact absurd hok (by simp)
      obtain ⟨sn, vn⟩ := q
      rw [hsi] at hok
      dsimp only at hok
      rcases hvf : verify_fallback_consistency st sn vn cached with e | u
      · rw [hvf] at hok
        exact absurd hok (by simp)
      · rw [hvf] at hok
        dsimp only at hok
        by_cases c5 : kw.required = true ∧ ¬ cached.found = true
        · rw [if_pos c5] at hok
          exact absurd hok (by simp)
        · rw [if_neg c5] at hok
          have hv := Except.ok.inj hok
          exact Or.inl (congrArg (fun p => p.2.shared.deps) hv).symm
  | none =>
    dsimp only at hok
    cases fb with
    | some fbv =>
      dsimp only at hok
      rcases hsi : get_subproject_infos fbv with e | q
      · rw [hsi] at hok
        exact absurd hok (by simp)
      obtain ⟨sn, vn⟩ := q
      rw [hsi] at hok
      dsimp only at hok
      by_cases c6 : (get_subproject st sn).isSome = true
      · rw [if_pos c6] at hok
        rcases hgd : get_subproject_dep ctx st name display_name sn vn kw with e | dd
        · rw [hgd] at hok
          exact absurd hok (by simp)
        · rw [hgd] at hok
          have hv := Except.ok.inj hok
          exact Or.inl (congrArg (fun p => p.2.shared.deps) hv).symm
      · rw [if_neg c6] at hok
        by_cases c7 : name ≠ "" ∧ ¬ (f2 || decide (sn ∈ ctx.force_fallback_for)) = true
        · rw [if_pos c7] at hok
          rcases hpe : ctx.find_external_dependency name kw false with e | dep
          · rw [hpe] at hok
            exact absurd hok (by simp)
          · rw [hpe] at hok
            dsimp only at hok
            by_cases c8 : dep.found = true
            · rw [if_pos c8] at hok
              have hv := Except.ok.inj hok
              refine Or.inr ⟨false, dep, hpe, c8, (congrArg Prod.fst hv).symm, ?_⟩
              have h2 := congrArg (fun p => p.2.shared.deps) hv
              rw [← hident]
              exact h2.symm
            · rw [if_neg c8] at hok
              exact Or.inl
                (dependency_fallback_deps ctx hev st name display_name fbv kw d st1 hok)
        · rw [if_neg c7] at hok
          exact Or.inl
            (dependency_fallback_deps ctx hev st name display_name fbv kw d st1 hok)
    | none =>
      by_cases c9 : name ≠ ""
      · rw [if_pos c9] at hok
        rcases hpe : ctx.find_external_dependency name kw kw.required with e | dep
        · rw [hpe] at hok
          exact absurd hok (by simp)
        · rw [hpe] at hok
          dsimp only at hok
          by_cases c8 : dep.found = true
          · rw [if_pos c8] at hok
            have hv := Except.ok.inj hok
            refine Or.inr ⟨kw.required, dep, hpe, c8, (congrArg Prod.fst hv).symm, ?_⟩
            have h2 := congrArg (fun p => p.2.shared.deps) hv
            rw [← hident]
            exact h2.symm
          · rw [if_neg c8] at hok
            have hv := Except.ok.inj hok
            exact Or.inl (congrArg (fun p => p.2.shared.deps) hv).symm
      · rw [if_neg c9] at hok
        have hv := Except.ok.inj hok
        exact Or.inl (congrArg (fun p => p.2.shared.deps) hv).symm

/-- Optional dependency kwargs with fallback subproject `z`, variable `v`. -/
def kwC4 : DepKwargs :=
  { disabled := false, required := false, fallback := some ["z", "v"],
    allow_fallback := none, version := [], native := .host, default_options := [] }

/-- Witness for C4: a lookup served through the fallback subproject `z`
(the probe finds nothing) evaluates the subproject and leaves the
implicit dependency cache unchanged. -/
theorem C4_fallback_never_cached_witness :
    dependency_impl ctx0 st0 "zlib" "zlib" kwC4 false = .ok (NotFoundDependency, stZ) ∧
    (stZ.shared.deps = st0.shared.deps ∨
      (∃ b dep, ctx0.find_external_dependency "zlib" kwC4 b = .ok dep ∧ dep.found = true ∧
        NotFoundDependency = dep ∧
        stZ.shared.deps = st0.shared.deps.set kwC4.native
          ((ctx0.dep_identifier "zlib" kwC4, dep) :: st0.shared.deps.get kwC4.native))) :=
  ⟨rfl, C4_fallback_never_cached ctx0 (fun _ _ _ => rfl) st0 "zlib" "zlib" kwC4 false
     NotFoundDependency stZ rfl⟩

end Meson
